import Mathlib

/-!
Verification development for the StooqAnalyzer statistics engine
(`src/lib/statistics.ts`).

The TypeScript module is shallowly embedded: prices and equity values are
rationals (`ℚ`) except where the source uses `Math.pow` with a fractional
exponent or `Math.sqrt`, which are modelled with `Real.rpow` / `Real.sqrt`.
ISO "YYYY-MM-DD" date strings are kept as `String` and compared
lexicographically, exactly as the source does; `new Date(...).getTime()` on a
well-formed ISO date string is modelled by a civil-calendar day number times
86400000 ms.  JavaScript `Map` objects built by insertion with overwrite are
modelled as lookup functions ("last write wins").  `Array.prototype.sort`
with a comparator on dates is a stable sort, modelled by the stable
`List.insertionSort`.
-/

/-- One row of parsed Stooq data (`StooqDataPoint` in `types.ts`). -/
structure StooqDataPoint where
  date : String
  open_ : ℚ
  high : ℚ
  low : ℚ
  close : ℚ
  volume : ℚ
deriving DecidableEq, Inhabited

/-- `{ ticker, data }` (`TickerData` in `types.ts`). -/
structure TickerData where
  ticker : String
  data : List StooqDataPoint
deriving DecidableEq, Inhabited

/-- Boolean lexicographic string order (same relation as `String.le`, stated on
the underlying character lists so that it evaluates by reduction). -/
def strLe (a b : String) : Bool := decide (a.data ≤ b.data)

/-- Boolean strict lexicographic string order. -/
def strLt (a b : String) : Bool := decide (a.data < b.data)

/-- Sort a daily series by date, as `[...data].sort((a, b) => a.date.localeCompare(b.date))`. -/
def jsSortByDate (data : List StooqDataPoint) : List StooqDataPoint :=
  data.insertionSort (fun a b => strLe a.date b.date = true)

/-! ### Date arithmetic

The source parses ISO dates with `new Date(s)` (UTC midnight) and reads
components either by `substring` / `parseInt` or by `getFullYear`/`getMonth`
accessors; both are modelled by direct field extraction from the string. -/

/-- Numeric value of a decimal digit character. -/
def charDigit (c : Char) : ℕ := c.toNat - 48

/-- Value of a string of decimal digits, as `parseInt` reads it. -/
def parseNat (s : String) : ℕ :=
  s.data.foldl (fun acc c => acc * 10 + charDigit c) 0

/-- Year component of an ISO "YYYY-MM-DD" string. -/
def dateYear (s : String) : ℤ := (parseNat (s.take 4) : ℤ)

/-- Month component (1–12) of an ISO "YYYY-MM-DD" string. -/
def dateMonth (s : String) : ℤ := (parseNat ((s.drop 5).take 2) : ℤ)

/-- Day-of-month component of an ISO "YYYY-MM-DD" string. -/
def dateDay (s : String) : ℤ := (parseNat ((s.drop 8).take 2) : ℤ)

/-- Days from the Unix epoch to the civil date (y, m, d), proleptic Gregorian. -/
def daysFromCivil (y m d : ℤ) : ℤ :=
  let y' := if m ≤ 2 then y - 1 else y
  let era := Int.fdiv y' 400
  let yoe := y' - era * 400
  let mp := Int.fmod (m + 9) 12
  let doy := Int.fdiv (153 * mp + 2) 5 + d - 1
  let doe := yoe * 365 + Int.fdiv yoe 4 - Int.fdiv yoe 100 + doy
  era * 146097 + doe - 719468

/-- Day number of an ISO date string. -/
def dateToDays (s : String) : ℤ :=
  daysFromCivil (dateYear s) (dateMonth s) (dateDay s)

/-- `new Date(s).getTime()` for a well-formed ISO date string, in milliseconds. -/
def dateMs (s : String) : ℚ := (dateToDays s : ℚ) * 86400000

/-- Elapsed years between two dates, `(end − start) / (365.25 * 24 * 60 * 60 * 1000)`. -/
def yearsBetween (s e : String) : ℚ :=
  (dateMs e - dateMs s) / ((365.25 : ℚ) * 24 * 60 * 60 * 1000)

/-! ### Drawdown engine (`calculateDrawdownSeries`, statistics.ts 417–457) -/

/-- One point of the drawdown chart series. -/
structure DrawdownDataPoint where
  date : String
  drawdown : ℚ
deriving DecidableEq, Inhabited

/-- Result record of `calculateDrawdownSeries`. -/
structure DrawdownSeries where
  data : List DrawdownDataPoint
  maxDrawdown : ℚ
  maxDrawdownDate : String
  currentDrawdown : ℚ
deriving DecidableEq

/-- Loop state of `calculateDrawdownSeries`. -/
structure DDState where
  peak : ℚ
  maxDrawdown : ℚ
  maxDrawdownDate : String
  ddata : List DrawdownDataPoint

/-- Body of the `for (const point of data)` loop in `calculateDrawdownSeries`. -/
def ddStep (st : DDState) (point : StooqDataPoint) : DDState :=
  let peak := if st.peak < point.close then point.close else st.peak
  let drawdown := -((peak - point.close) / peak) * 100
  let md : ℚ × String :=
    if drawdown < -st.maxDrawdown then (-drawdown, point.date)
    else (st.maxDrawdown, st.maxDrawdownDate)
  { peak := peak, maxDrawdown := md.1, maxDrawdownDate := md.2,
    ddata := st.ddata ++ [⟨point.date, drawdown⟩] }

/-- `calculateDrawdownSeries(data)` (statistics.ts 417–457). -/
def calculateDrawdownSeries (data : List StooqDataPoint) : DrawdownSeries :=
  match data with
  | [] => { data := [], maxDrawdown := 0, maxDrawdownDate := "", currentDrawdown := 0 }
  | d0 :: _ =>
    let st := data.foldl ddStep
      { peak := d0.close, maxDrawdown := 0, maxDrawdownDate := d0.date, ddata := [] }
    let currentDrawdown : ℚ :=
      match st.ddata.getLast? with
      | some p => -p.drawdown
      | none => 0
    { data := st.ddata, maxDrawdown := st.maxDrawdown,
      maxDrawdownDate := st.maxDrawdownDate, currentDrawdown := currentDrawdown }

/-! Closed form of the emitted drawdown list: the running peak over a prefix is
a `foldl max`, and each emitted point is the peak-relative loss at that index. -/

/-- The drawdown emitted at index `i`, relative to the peak so far. -/
def ddAt (data : List StooqDataPoint) (init : ℚ) (i : ℕ) : DrawdownDataPoint :=
  let p := data.getD i default
  let peak := ((data.take (i + 1)).map (·.close)).foldl max init
  ⟨p.date, -((peak - p.close) / peak) * 100⟩

/-- C1, part 2: every emitted drawdown is ≤ 0, and is 0 exactly when the close
equals the maximum close over indices `0..i`. -/
def DrawdownSignProp (data : List StooqDataPoint) : Prop :=
  ∀ i, i < data.length →
    ((calculateDrawdownSeries data).data.getD i default).drawdown ≤ 0 ∧
    (((calculateDrawdownSeries data).data.getD i default).drawdown = 0 ↔
      ∀ j, j ≤ i → (data.getD j default).close ≤ (data.getD i default).close)

/-- Concrete three-day series used to witness the drawdown claim. -/
def ddWitnessData : List StooqDataPoint :=
  [⟨"2023-01-02", 100, 100, 100, 100, 0⟩,
   ⟨"2023-01-03", 120, 120, 120, 120, 0⟩,
   ⟨"2023-01-04", 90, 90, 90, 90, 0⟩]

/-- Gregorian leap-year test. -/
def isLeapYear (y : ℤ) : Bool :=
  decide ((y % 4 = 0 ∧ ¬y % 100 = 0) ∨ y % 400 = 0)

/-- Days in month `m` (1–12) of year `y`. -/
def daysInMonth (y m : ℤ) : ℤ :=
  if m = 2 then (if isLeapYear y then 29 else 28)
  else if m = 4 ∨ m = 6 ∨ m = 9 ∨ m = 11 then 30
  else 31

/-- Zero-pad to two digits, as in an ISO date component. -/
def pad2 (n : ℤ) : String :=
  if n < 10 then "0" ++ toString n else toString n

/-- Zero-pad to four digits, as in an ISO year. -/
def pad4 (n : ℤ) : String :=
  if n < 10 then "000" ++ toString n
  else if n < 100 then "00" ++ toString n
  else if n < 1000 then "0" ++ toString n
  else toString n

/-- The window-start target date: `s` with the year decreased by `n`,
normalized the way `Date.setFullYear` + `toISOString` normalize Feb 29. -/
def rollingTargetDate (s : String) (n : ℤ) : String :=
  let y := dateYear s - n
  let m := dateMonth s
  let d := dateDay s
  if daysInMonth y m < d then
    pad4 y ++ "-" ++ pad2 (m + 1) ++ "-" ++ pad2 (d - daysInMonth y m)
  else
    pad4 y ++ "-" ++ pad2 m ++ "-" ++ pad2 d

/-- One rolling-return output point (`RollingReturnDataPoint` in `types.ts`). -/
structure RollingReturnDataPoint where
  date : String
  rollingCagr : ℝ
  startDate : String
  startPrice : ℚ
  endPrice : ℚ
deriving Inhabited

/-- The `while (startIdx < i - 1 && data[startIdx + 1].date <= targetDateStr)`
cursor advance of `calculateRollingReturns`. -/
def rollingAdvance (data : List StooqDataPoint) (targetDateStr : String) (i : ℕ) (s : ℕ) : ℕ :=
  if h : s + 1 < i ∧ (data.getD (s + 1) default).date ≤ targetDateStr then
    rollingAdvance data targetDateStr i (s + 1)
  else s
termination_by i - s
decreasing_by omega

/-- Body of the `for` loop of `calculateRollingReturns`; a `continue` is an
empty emission. -/
noncomputable def rollingStep (data : List StooqDataPoint) (rollingYears : ℤ)
    (st : ℕ × List RollingReturnDataPoint) (i : ℕ) : ℕ × List RollingReturnDataPoint :=
  let endDate := (data.getD i default).date
  let targetDateStr := rollingTargetDate endDate rollingYears
  let s := rollingAdvance data targetDateStr i st.1
  let startPrice := (data.getD s default).close
  let endPrice := (data.getD i default).close
  let years := yearsBetween (data.getD s default).date endDate
  let emit : Option RollingReturnDataPoint :=
    if targetDateStr < (data.getD s default).date then none
    else if startPrice ≤ 0 then none
    else if years ≤ 0 then none
    else some ⟨endDate,
      (if rollingYears = 1 then (((endPrice / startPrice - 1) * 100 : ℚ) : ℝ)
       else (Real.rpow ((endPrice / startPrice : ℚ) : ℝ) (1 / (years : ℝ)) - 1) * 100),
      (data.getD s default).date, startPrice, endPrice⟩
  (s, st.2 ++ emit.toList)

/-- `calculateRollingReturns(data, rollingYears)` (statistics.ts 690–736). -/
noncomputable def calculateRollingReturns (data : List StooqDataPoint)
    (rollingYears : ℤ) : List RollingReturnDataPoint :=
  if data.length = 0 ∨ rollingYears < 1 then []
  else ((List.range data.length).foldl (rollingStep data rollingYears) (0, [])).2

/-- C5, part 1: with `windowYears = 1` every emitted point carries the simple
(non-compounded) percentage return between its resolved start and end prices. -/
def RollingSimpleReturnProp (data : List StooqDataPoint) : Prop :=
  ∀ p ∈ calculateRollingReturns data 1,
    p.rollingCagr = (((p.endPrice / p.startPrice - 1) * 100 : ℚ) : ℝ) ∧
    p.startDate ≤ rollingTargetDate p.date 1

/-- C5, part 2: an index whose one-year-back target date precedes the first
data point is skipped — its date never appears in the output. -/
def RollingSkipProp (data : List StooqDataPoint) : Prop :=
  ∀ hd, data.head? = some hd →
    ∀ i, i < data.length →
      rollingTargetDate ((data.getD i default).date) 1 < hd.date →
      (data.getD i default).date ∉ (calculateRollingReturns data 1).map (·.date)

/-- Concrete two-point series, one calendar year apart, for the C5 witness. -/
def rollingWitnessData : List StooqDataPoint :=
  [⟨"2023-01-01", 100, 100, 100, 100, 0⟩,
   ⟨"2024-01-01", 110, 110, 110, 110, 0⟩]

/-! ### Calendar returns table (`calculateReturnsTable`, statistics.ts 483–684)

The source keys its maps by the template string `` `${year}-${month}` `` with
`month = getMonth()` (0-based); the key is modelled by the pair
`(year, month)`, to which that template is injective. -/

/-- The `(year, month0)` bucket key of a data point, month 0-based. -/
def ymOfPoint (p : StooqDataPoint) : ℤ × ℤ :=
  (dateYear p.date, dateMonth p.date - 1)

/-- `dataByYearMonth.get(key)`: the points of one `(year, month)` bucket, in
input order. -/
def monthBucket (data : List StooqDataPoint) (k : ℤ × ℤ) : List StooqDataPoint :=
  data.filter (fun p => decide (ymOfPoint p = k))

/-- The last point (by date) of a `(year, month)` bucket, if any. -/
def lastPointByYearMonth (data : List StooqDataPoint) (k : ℤ × ℤ) : Option StooqDataPoint :=
  ((monthBucket data k).insertionSort (fun a b => strLe a.date b.date = true)).getLast?

/-- `lastPriceByYearMonth.get(key)`. -/
def lastPriceByYearMonth (data : List StooqDataPoint) (k : ℤ × ℤ) : Option ℚ :=
  (lastPointByYearMonth data k).map (·.close)

/-- `lastDateByYearMonth.get(key)`. -/
def lastDateByYearMonth (data : List StooqDataPoint) (k : ℤ × ℤ) : Option String :=
  (lastPointByYearMonth data k).map (·.date)

/-- `[...new Set(data.map(d => new Date(d.date).getFullYear()))].sort()`. -/
def tableYears (data : List StooqDataPoint) : List ℤ :=
  ((data.map (fun p => dateYear p.date)).dedup).insertionSort (· ≤ ·)

/-- Body of the ATH-count scan: bump the year counter on a strictly new
global maximum close. -/
def athStep (st : ℚ × (ℤ → ℕ)) (point : StooqDataPoint) : ℚ × (ℤ → ℕ) :=
  if st.1 < point.close then
    (point.close, fun y => if y = dateYear point.date then st.2 y + 1 else st.2 y)
  else st

/-- `athCountByYear` of `calculateReturnsTable`: scan the chronologically
sorted history with a running global maximum initialized to the first close. -/
def athCounts (data : List StooqDataPoint) (y : ℤ) : ℕ :=
  let sortedData := jsSortByDate data
  ((sortedData.foldl athStep ((sortedData.headD default).close, fun _ => 0)).2) y

/-- Audit record for one return cell (`ReturnCalcDetail`). -/
structure ReturnCalcDetail where
  returnValue : Option ℚ
  startPrice : Option ℚ
  endPrice : Option ℚ
  startDate : Option String
  endDate : Option String
deriving DecidableEq, Inhabited

/-- The all-`null` `ReturnCalcDetail`. -/
def emptyReturnDetail : ReturnCalcDetail :=
  { returnValue := none, startPrice := none, endPrice := none,
    startDate := none, endDate := none }

/-- One row of the returns table (`YearlyData`). -/
structure YearlyData where
  year : ℤ
  monthlyReturns : List (Option ℚ)
  monthlyDetails : List ReturnCalcDetail
  annualReturn : Option ℚ
  annualDetail : ReturnCalcDetail
  annualStd : Option ℝ
  maxDrawdown : Option ℚ
  athCount : ℕ

/-- `ReturnsTableData`. -/
structure ReturnsTableData where
  years : List YearlyData

/-- The monthly-return cell for month `month` (0-based) of `year`: last price
of the bucket against the last price of the prior month's bucket, or absent. -/
def monthCell (data : List StooqDataPoint) (year month : ℤ) : Option ℚ × ReturnCalcDetail :=
  if monthBucket data (year, month) = [] then (none, emptyReturnDetail)
  else
    let priorKey : ℤ × ℤ := if month = 0 then (year - 1, 11) else (year, month - 1)
    match lastPriceByYearMonth data priorKey, lastPriceByYearMonth data (year, month) with
    | some priorPrice, some currentPrice =>
      let rv := ((currentPrice - priorPrice) / priorPrice) * 100
      (some rv,
        { returnValue := some rv, startPrice := some priorPrice, endPrice := some currentPrice,
          startDate := lastDateByYearMonth data priorKey,
          endDate := lastDateByYearMonth data (year, month) })
    | _, _ => (none, emptyReturnDetail)

/-- One yearly row of `calculateReturnsTable`. -/
noncomputable def mkYearly (data : List StooqDataPoint) (year : ℤ) : YearlyData :=
  let cells := (List.range 12).map (fun (m : ℕ) => monthCell data year (m : ℤ))
  let yearPoints := (List.range 12).flatMap (fun (m : ℕ) => monthBucket data (year, (m : ℤ)))
  let sortedYear := yearPoints.insertionSort (fun a b => strLe a.date b.date = true)
  let decPriorPrice := lastPriceByYearMonth data (year - 1, 11)
  let decPriorDate := lastDateByYearMonth data (year - 1, 11)
  let lastInYear : Option (ℚ × Option String) :=
    ((List.range 12).reverse).findSome? (fun (m : ℕ) =>
      (lastPriceByYearMonth data (year, (m : ℤ))).map
        (fun pr => (pr, lastDateByYearMonth data (year, (m : ℤ)))))
  let annualPair : Option ℚ × ReturnCalcDetail :=
    match lastInYear, decPriorPrice with
    | some (lp, ld), some dp =>
      let ar := ((lp - dp) / dp) * 100
      (some ar, { returnValue := some ar, startPrice := some dp, endPrice := some lp,
                  startDate := decPriorDate, endDate := ld })
    | _, _ =>
      if 2 ≤ sortedYear.length then
        let firstPrice := (sortedYear.headD default).close
        let lastPrice := (sortedYear.getLastD default).close
        let ar := ((lastPrice - firstPrice) / firstPrice) * 100
        (some ar, { returnValue := some ar, startPrice := some firstPrice,
                    endPrice := some lastPrice,
                    startDate := some (sortedYear.headD default).date,
                    endDate := some (sortedYear.getLastD default).date })
      else (none, emptyReturnDetail)
  let dailyReturns : List ℚ :=
    (List.range (sortedYear.length - 1)).map (fun i =>
      ((sortedYear.getD (i + 1) default).close - (sortedYear.getD i default).close) /
        (sortedYear.getD i default).close)
  let annualStd : Option ℝ :=
    if 2 ≤ sortedYear.length then
      if 2 ≤ dailyReturns.length then
        let mean := dailyReturns.sum / (dailyReturns.length : ℚ)
        let variance := ((dailyReturns.map (fun r => (r - mean) ^ 2)).sum) /
          ((dailyReturns.length : ℚ) - 1)
        some (Real.sqrt (variance : ℝ) * Real.sqrt 252 * 100)
      else none
    else none
  let maxDD : Option ℚ :=
    if 2 ≤ sortedYear.length then
      some ((sortedYear.foldl (fun (st : ℚ × ℚ) point =>
        let peak := if st.1 < point.close then point.close else st.1
        let dd := ((peak - point.close) / peak) * 100
        (peak, if st.2 < dd then dd else st.2))
        ((sortedYear.headD default).close, 0)).2)
    else none
  { year := year
    monthlyReturns := cells.map (·.1)
    monthlyDetails := cells.map (·.2)
    annualReturn := annualPair.1
    annualDetail := annualPair.2
    annualStd := annualStd
    maxDrawdown := maxDD
    athCount := athCounts data year }

/-- `calculateReturnsTable(data)` (statistics.ts 483–684). -/
noncomputable def calculateReturnsTable (data : List StooqDataPoint) : ReturnsTableData :=
  if data.length < 2 then { years := [] }
  else { years := (tableYears data).map (mkYearly data) }

/-- Helper count used to characterize the ATH scan: positions of `l` whose
close strictly exceeds the carried maximum `m` and every earlier close in `l`,
dated in year `y`. -/
def countAux (l : List StooqDataPoint) (m : ℚ) (y : ℤ) : ℕ :=
  (List.range l.length).countP (fun i =>
    decide (dateYear ((l.getD i default).date) = y) &&
    decide (m < (l.getD i default).close) &&
    decide (∀ j, j < i → (l.getD j default).close < (l.getD i default).close))

/-- The C6 claim's count read literally: points of year `y` whose close
strictly exceeds every prior close (the first point qualifies vacuously). -/
def specAthCount (data : List StooqDataPoint) (y : ℤ) : ℕ :=
  (List.range data.length).countP (fun i =>
    decide (dateYear ((data.getD i default).date) = y) &&
    decide (∀ j, j < i → (data.getD j default).close < (data.getD i default).close))

/-- The amended C6 count: as `specAthCount` but never counting the very first
point of the history (the running maximum is initialized to it). -/
def specAthCountAfterFirst (data : List StooqDataPoint) (y : ℤ) : ℕ :=
  (List.range data.length).countP (fun i =>
    decide (0 < i) &&
    decide (dateYear ((data.getD i default).date) = y) &&
    decide (∀ j, j < i → (data.getD j default).close < (data.getD i default).close))

/-- C6 (amended form), as a predicate: each table row's `athCount` equals the
claim's global-comparison count restricted to indices after the first. -/
def AthCountMatchesSpec (data : List StooqDataPoint) : Prop :=
  ∀ yr ∈ (calculateReturnsTable data).years, yr.athCount = specAthCountAfterFirst data yr.year

/-- C7, as a predicate: each monthly cell is the last-price-over-prior-month
ratio, absent exactly when either endpoint bucket is empty. -/
def MonthlyReturnSpec (data : List StooqDataPoint) : Prop :=
  ∀ yr ∈ (calculateReturnsTable data).years, ∀ m : ℕ, m < 12 →
    yr.monthlyReturns.getD m none =
      match lastPriceByYearMonth data (yr.year, (m : ℤ)),
            lastPriceByYearMonth data
              (if (m : ℤ) = 0 then (yr.year - 1, 11) else (yr.year, (m : ℤ) - 1)) with
      | some cur, some pri => some ((cur / pri - 1) * 100)
      | _, _ => none

/-- Two-point January 2023 series on which the literal C6 count and the code
disagree about the very first point. -/
def athCexData : List StooqDataPoint :=
  [⟨"2023-01-02", 100, 100, 100, 100, 0⟩,
   ⟨"2023-01-03", 50, 50, 50, 50, 0⟩]

/-- Concrete series for the C6 witness. -/
def athWitnessData : List StooqDataPoint :=
  [⟨"2023-01-02", 100, 100, 100, 100, 0⟩,
   ⟨"2023-01-03", 150, 150, 150, 150, 0⟩,
   ⟨"2024-01-03", 120, 120, 120, 120, 0⟩]

/-- Concrete two-month series for the C7 witness. -/
def monthlyWitnessData : List StooqDataPoint :=
  [⟨"2023-01-02", 100, 100, 100, 100, 0⟩,
   ⟨"2023-01-31", 110, 110, 110, 110, 0⟩,
   ⟨"2023-02-28", 121, 121, 121, 121, 0⟩]

/-! ### Core summary statistics (`calculateStatistics`, statistics.ts 18–279) -/

/-- The fixed 2% risk-free rate of the summary engine (statistics.ts 15). -/
noncomputable def RISK_FREE_RATE : ℝ := 0.02

/-- Trading days per year (statistics.ts 16). -/
def TRADING_DAYS_PER_YEAR : ℕ := 252

/-- `Math.ceil((dateB − dateA) / 86400000 ms)` in calendar days. -/
def ceilDaysBetween (a b : String) : ℤ :=
  Int.ceil ((dateMs b - dateMs a) / (1000 * 60 * 60 * 24 : ℚ))

/-- Result of `calculateDrawdowns` (statistics.ts 110–165). -/
structure DrawdownsResult where
  maxDrawdown : ℚ
  maxDrawdownDate : String
  currentDrawdown : ℚ
  longestDrawdownDays : ℤ

/-- Loop state of `calculateDrawdowns`. -/
structure DrawdownsAcc where
  peak : ℚ
  peakDate : String
  maxDrawdown : ℚ
  maxDrawdownDate : String
  longestDrawdownDays : ℤ
  currentDrawdownStartDate : String

/-- Body of the indexed loop of `calculateDrawdowns`. -/
def drawdownsStep (st : DrawdownsAcc) (point : StooqDataPoint) : DrawdownsAcc :=
  if st.peak < point.close then
    let drawdownDays := ceilDaysBetween st.currentDrawdownStartDate point.date
    { st with
      longestDrawdownDays :=
        if st.longestDrawdownDays < drawdownDays then drawdownDays else st.longestDrawdownDays,
      peak := point.close, peakDate := point.date, currentDrawdownStartDate := point.date }
  else
    let drawdown := ((st.peak - point.close) / st.peak) * 100
    if st.maxDrawdown < drawdown then
      { st with maxDrawdown := drawdown, maxDrawdownDate := point.date }
    else st

/-- `calculateDrawdowns(data)` (statistics.ts 110–165). -/
def calculateDrawdowns (data : List StooqDataPoint) : DrawdownsResult :=
  let st := data.foldl drawdownsStep
    { peak := (data.headD default).close, peakDate := (data.headD default).date,
      maxDrawdown := 0, maxDrawdownDate := (data.headD default).date,
      longestDrawdownDays := 0, currentDrawdownStartDate := (data.headD default).date }
  let lastDate := (data.getLastD default).date
  let finalDrawdownDays := ceilDaysBetween st.currentDrawdownStartDate lastDate
  let longest :=
    if st.longestDrawdownDays < finalDrawdownDays then finalDrawdownDays
    else st.longestDrawdownDays
  let currentDrawdown := ((st.peak - (data.getLastD default).close) / st.peak) * 100
  { maxDrawdown := st.maxDrawdown, maxDrawdownDate := st.maxDrawdownDate,
    currentDrawdown := currentDrawdown, longestDrawdownDays := longest }

/-- Result of `calculateSessionStats` (statistics.ts 167–209). -/
structure SessionStats where
  profitSessions : ℕ
  lossSessions : ℕ
  avgProfitSession : ℚ
  avgLossSession : ℚ
  dailyReturns : List ℚ

/-- Loop state of `calculateSessionStats`. -/
structure SessionAcc where
  dailyReturns : List ℚ
  profitSessions : ℕ
  lossSessions : ℕ
  totalProfit : ℚ
  totalLoss : ℚ

/-- Body of the adjacent-pair loop of `calculateSessionStats`: the pair at
offset `i` is `(data[i], data[i+1])`. -/
def sessionStep (data : List StooqDataPoint) (st : SessionAcc) (i : ℕ) : SessionAcc :=
  let prevClose := (data.getD i default).close
  let currClose := (data.getD (i + 1) default).close
  let dailyReturn := (currClose - prevClose) / prevClose
  let st := { st with dailyReturns := st.dailyReturns ++ [dailyReturn] }
  if 0 < dailyReturn then
    { st with profitSessions := st.profitSessions + 1, totalProfit := st.totalProfit + dailyReturn }
  else if dailyReturn < 0 then
    { st with lossSessions := st.lossSessions + 1, totalLoss := st.totalLoss + dailyReturn }
  else st

/-- `calculateSessionStats(data)` (statistics.ts 167–209). -/
def calculateSessionStats (data : List StooqDataPoint) : SessionStats :=
  let st := (List.range (data.length - 1)).foldl (sessionStep data)
    { dailyReturns := [], profitSessions := 0, lossSessions := 0, totalProfit := 0, totalLoss := 0 }
  let avgProfitSession :=
    if 0 < st.profitSessions then (st.totalProfit / (st.profitSessions : ℚ)) * 100 else 0
  let avgLossSession :=
    if 0 < st.lossSessions then (st.totalLoss / (st.lossSessions : ℚ)) * 100 else 0
  { profitSessions := st.profitSessions, lossSessions := st.lossSessions,
    avgProfitSession := avgProfitSession, avgLossSession := avgLossSession,
    dailyReturns := st.dailyReturns }

/-- `calculateAnnualizedStd(dailyReturns)` (statistics.ts 211–220):
Bessel-corrected daily standard deviation scaled by `sqrt(252)`. -/
noncomputable def calculateAnnualizedStd (dailyReturns : List ℚ) : ℝ :=
  if dailyReturns.length < 2 then 0
  else
    let mean := dailyReturns.sum / (dailyReturns.length : ℚ)
    let squaredDiffs := dailyReturns.map (fun r => (r - mean) ^ 2)
    let variance := squaredDiffs.sum / ((dailyReturns.length : ℚ) - 1)
    Real.sqrt (variance : ℝ) * Real.sqrt (TRADING_DAYS_PER_YEAR : ℝ)

/-- Result of `calculatePeriodReturns` (statistics.ts 222–279). -/
structure PeriodReturns where
  ytdReturn : Option ℚ
  oneYearReturn : Option ℚ
  threeYearReturn : Option ℚ

/-- The month-end price index of `calculatePeriodReturns` ("last write wins"). -/
def periodLastPriceByYM (sortedData : List StooqDataPoint) (k : ℤ × ℤ) : Option ℚ :=
  ((sortedData.filter (fun p => decide (ymOfPoint p = k))).getLast?).map (·.close)

/-- `findPriceAtDate`: the close of the latest point dated on-or-before `t`. -/
def findPriceAtDate (sortedData : List StooqDataPoint) (t : String) : Option ℚ :=
  ((sortedData.filter (fun p => strLe p.date t)).getLast?).map (·.close)

/-- `calculatePeriodReturns(data)` (statistics.ts 222–279). -/
def calculatePeriodReturns (data : List StooqDataPoint) : PeriodReturns :=
  if data.length < 2 then { ytdReturn := none, oneYearReturn := none, threeYearReturn := none }
  else
    let sortedData := jsSortByDate data
    let endPrice := (sortedData.getLastD default).close
    let endDateStr := (sortedData.getLastD default).date
    let endYear := dateYear endDateStr
    let ytdStartPrice := periodLastPriceByYM sortedData (endYear - 1, 11)
    let ytdReturn := ytdStartPrice.map (fun sp => ((endPrice - sp) / sp) * 100)
    let oneYearAgoStr := toString (endYear - 1) ++ "-" ++ endDateStr.drop 5
    let oneYearStartPrice := findPriceAtDate sortedData oneYearAgoStr
    let oneYearReturn := oneYearStartPrice.map (fun sp => ((endPrice - sp) / sp) * 100)
    let threeYearsAgoStr := toString (endYear - 3) ++ "-" ++ endDateStr.drop 5
    let threeYearStartPrice := findPriceAtDate sortedData threeYearsAgoStr
    let threeYearReturn := threeYearStartPrice.map (fun sp => ((endPrice - sp) / sp) * 100)
    { ytdReturn := ytdReturn, oneYearReturn := oneYearReturn, threeYearReturn := threeYearReturn }

/-- The `Statistics` record of `types.ts`. -/
structure Statistics where
  ticker : String
  startDate : String
  endDate : String
  totalDays : ℕ
  periodReturn : ℚ
  cagr : ℝ
  growthOf1 : ℚ
  ytdReturn : Option ℚ
  oneYearReturn : Option ℚ
  threeYearReturn : Option ℚ
  maxDrawdown : ℚ
  maxDrawdownDate : String
  currentDrawdown : ℚ
  toReturnToATH : ℚ
  longestDrawdownDays : ℤ
  startPrice : ℚ
  endPrice : ℚ
  minPrice : ℚ
  minPriceDate : String
  maxPrice : ℚ
  maxPriceDate : String
  profitSessions : ℕ
  lossSessions : ℕ
  avgProfitSession : ℚ
  avgLossSession : ℚ
  annualizedStd : ℝ
  sharpeRatio : ℝ

/-- Accumulator of the min/max price scan of `calculateStatistics`. -/
structure MinMaxAcc where
  minPrice : ℚ
  minPriceDate : String
  maxPrice : ℚ
  maxPriceDate : String

/-- Body of the min/max scan: two independent comparisons, first occurrence
wins on ties. -/
def minMaxStep (st : MinMaxAcc) (point : StooqDataPoint) : MinMaxAcc :=
  let st :=
    if point.close < st.minPrice then
      { st with minPrice := point.close, minPriceDate := point.date }
    else st
  if st.maxPrice < point.close then
    { st with maxPrice := point.close, maxPriceDate := point.date }
  else st

/-- `calculateStatistics(ticker, data)` (statistics.ts 18–108); the thrown
`Error` is an `Except.error`. -/
noncomputable def calculateStatistics (ticker : String) (data : List StooqDataPoint) :
    Except String Statistics :=
  if data.length < 2 then Except.error "Insufficient data to calculate statistics"
  else
    let startPrice := (data.headD default).close
    let endPrice := (data.getLastD default).close
    let startDate := (data.headD default).date
    let endDate := (data.getLastD default).date
    let totalDays := data.length
    let years := yearsBetween startDate endDate
    let periodReturn := ((endPrice - startPrice) / startPrice) * 100
    let cagr : ℝ :=
      if 0 < years then
        (Real.rpow ((endPrice / startPrice : ℚ) : ℝ) (1 / (years : ℝ)) - 1) * 100
      else 0
    let growthOf1 := endPrice / startPrice
    let mm := data.foldl minMaxStep
      { minPrice := startPrice, minPriceDate := startDate,
        maxPrice := startPrice, maxPriceDate := startDate }
    let dd := calculateDrawdowns data
    let toReturnToATH :=
      if endPrice < mm.maxPrice then ((mm.maxPrice / endPrice) - 1) * 100 else 0
    let ss := calculateSessionStats data
    let annualizedStd := calculateAnnualizedStd ss.dailyReturns
    let annualizedReturn := cagr / 100
    let sharpeRatio :=
      if 0 < annualizedStd then (annualizedReturn - RISK_FREE_RATE) / annualizedStd else 0
    let pr := calculatePeriodReturns data
    Except.ok
      { ticker := ticker, startDate := startDate, endDate := endDate, totalDays := totalDays,
        periodReturn := periodReturn, cagr := cagr, growthOf1 := growthOf1,
        ytdReturn := pr.ytdReturn, oneYearReturn := pr.oneYearReturn,
        threeYearReturn := pr.threeYearReturn,
        maxDrawdown := dd.maxDrawdown, maxDrawdownDate := dd.maxDrawdownDate,
        currentDrawdown := dd.currentDrawdown, toReturnToATH := toReturnToATH,
        longestDrawdownDays := dd.longestDrawdownDays,
        startPrice := startPrice, endPrice := endPrice,
        minPrice := mm.minPrice, minPriceDate := mm.minPriceDate,
        maxPrice := mm.maxPrice, maxPriceDate := mm.maxPriceDate,
        profitSessions := ss.profitSessions, lossSessions := ss.lossSessions,
        avgProfitSession := ss.avgProfitSession, avgLossSession := ss.avgLossSession,
        annualizedStd := annualizedStd * 100, sharpeRatio := sharpeRatio }

/-- Concrete two-point series for the C4 witness. -/
def statsWitnessData : List StooqDataPoint :=
  [⟨"2020-01-02", 100, 100, 100, 100, 0⟩,
   ⟨"2020-01-03", 101, 101, 101, 101, 0⟩]

/-- Concrete degenerate series (two points on the same date, equal closes)
for the C9 witness. -/
def statsDegenWitnessData : List StooqDataPoint :=
  [⟨"2020-01-02", 100, 100, 100, 100, 0⟩,
   ⟨"2020-01-02", 100, 100, 100, 100, 0⟩]

/-- Executable check that adjacent dates are non-decreasing. -/
def sortedByDateLe : List StooqDataPoint → Bool
  | [] => true
  | [_] => true
  | a :: b :: rest => strLe a.date b.date && sortedByDateLe (b :: rest)

/-- Executable check that adjacent dates are strictly increasing. -/
def sortedByDateLt : List StooqDataPoint → Bool
  | [] => true
  | [_] => true
  | a :: b :: rest => strLt a.date b.date && sortedByDateLt (b :: rest)

/-! ### Multi-series normalizer (`normalizeDataForChart`, statistics.ts 281–355)

A `ChartDataPoint` is a JS object with a `date` key plus one dynamic key per
ticker; the dynamic keys are modelled as an association list.  The falsy check
`dateMap.get(commonStartDate) || data[0].close` treats a price of 0 (and a
missing entry) as absent. -/

/-- One output row of the normalizer: the date plus one `(ticker, value)`
entry per ticker that has data on that date. -/
structure ChartDataPoint where
  date : String
  values : List (String × ℚ)
deriving DecidableEq, Inhabited

/-- `tickerDateMap.get(ticker).get(date)` — per-ticker date-to-close map,
last write wins. -/
def tickerPriceAt (td : TickerData) (d : String) : Option ℚ :=
  ((td.data.filter (fun p => decide (p.date = d))).getLast?).map (·.close)

/-- The sorted union of all dates of all series. -/
def allSortedDates (ts : List TickerData) : List String :=
  ((ts.flatMap (fun td => td.data.map (·.date))).dedup).insertionSort
    (fun a b => strLe a b = true)

/-- Whether every ticker has data on date `d`. -/
def coversAll (ts : List TickerData) (d : String) : Bool :=
  ts.all (fun td => (tickerPriceAt td d).isSome)

/-- The first date of the sorted union on which every ticker has data. -/
def commonStartDateFound (ts : List TickerData) : Option String :=
  (allSortedDates ts).find? (coversAll ts)

/-- JavaScript `x || y` on an optional price: a missing or zero price falls
back to `y`. -/
def jsOrPrice (x : Option ℚ) (y : ℚ) : ℚ :=
  match x with
  | some v => if v = 0 then y else v
  | none => y

/-- `normalizeDataForChart(tickersData)` (statistics.ts 281–355). -/
def normalizeDataForChart (ts : List TickerData) : List ChartDataPoint :=
  if ts.length = 0 then []
  else
    let sortedDates := allSortedDates ts
    let commonStartDate :=
      (commonStartDateFound ts).getD (((ts.headD default).data.headD default).date)
    let basePrice : TickerData → ℚ := fun td =>
      jsOrPrice (tickerPriceAt td commonStartDate) ((td.data.headD default).close)
    let startIndex := sortedDates.findIdx (fun d => decide (d = commonStartDate))
    (sortedDates.drop startIndex).filterMap (fun date =>
      let values := ts.filterMap (fun td =>
        (tickerPriceAt td date).map (fun price =>
          (td.ticker, if ts.length = 1 then price else (price / basePrice td) * 100)))
      if 0 < values.length then some { date := date, values := values } else none)

/-- C8, as a predicate: when a common start date is found, the output row for
it carries the value 100 for every ticker. -/
def NormalizeBaseProp (ts : List TickerData) : Prop :=
  ∀ c, commonStartDateFound ts = some c →
    ∃ row ∈ normalizeDataForChart ts, row.date = c ∧
      ∀ td ∈ ts, row.values.lookup td.ticker = some 100

/-- Concrete two-ticker input sharing one date, for the C8 witness. -/
def normalizeWitnessData : List TickerData :=
  [⟨"AAA", [⟨"2020-01-02", 100, 100, 100, 100, 0⟩]⟩,
   ⟨"BBB", [⟨"2020-01-02", 50, 50, 50, 50, 0⟩]⟩]

/-! ### Trend-following backtest (statistics.ts 742–1110)

`firstSignalDate` is read through `?.date` with a falsy guard; the guard is
modelled as the `Option` being empty (the empty-string-date corner of JS
falsiness is not modelled).  The `||` defaulting of the final `currentSignal`
never fires, since both `'BUY'` and `'SELL'` are truthy. -/

/-- `TrendSignal` in `types.ts`. -/
inductive TrendSignal where
  | BUY : TrendSignal
  | SELL : TrendSignal
deriving DecidableEq, Inhabited

/-- `MonthlyDataPoint` in `types.ts`. -/
structure MonthlyDataPoint where
  date : String
  price : ℚ
  sma10 : Option ℚ
  signal : Option TrendSignal
deriving DecidableEq, Inhabited

/-- `extractMonthlyEndPrices(data)` (statistics.ts 745–770): one point per
distinct "YYYY-MM" prefix, keyed ascending, valued by the last write. -/
def extractMonthlyEndPrices (data : List StooqDataPoint) : List MonthlyDataPoint :=
  if data.length = 0 then []
  else
    let sortedData := jsSortByDate data
    let keys := ((sortedData.map (fun p => p.date.take 7)).dedup).insertionSort
      (fun a b => strLe a b = true)
    keys.map (fun k =>
      match (sortedData.filter (fun p => decide (p.date.take 7 = k))).getLast? with
      | some p => { date := p.date, price := p.close, sma10 := none, signal := none }
      | none => default)

/-- `calculateMonthlySignals(monthlyPrices)` (statistics.ts 775–806). -/
def calculateMonthlySignals (monthlyPrices : List MonthlyDataPoint) : List MonthlyDataPoint :=
  (List.range monthlyPrices.length).map (fun i =>
    let current := monthlyPrices.getD i default
    let sma10 : Option ℚ :=
      if 9 ≤ i then
        some ((((List.range 10).map
          (fun j => (monthlyPrices.getD (i - 9 + j) default).price)).sum) / 10)
      else none
    let signal : Option TrendSignal :=
      match sma10 with
      | some s => some (if s < current.price then TrendSignal.BUY else TrendSignal.SELL)
      | none => none
    { date := current.date, price := current.price, sma10 := sma10, signal := signal })

/-- `TrendFollowingChartPoint` in `types.ts`. -/
structure TrendFollowingChartPoint where
  date : String
  buyHold : ℚ
  trendFollowing : ℝ
  sma10 : Option ℚ
  signal : TrendSignal

/-- One `{date, signal}` transition event. -/
structure SignalEvent where
  date : String
  signal : TrendSignal
deriving DecidableEq

/-- `signalMap.get(yearMonth)` of `calculateTrendFollowingEquity`. -/
def signalMapGet (monthlySignals : List MonthlyDataPoint) (ym : String) :
    Option (TrendSignal × ℚ) :=
  ((monthlySignals.filter (fun mp =>
      mp.signal.isSome && mp.sma10.isSome && decide (mp.date.take 7 = ym))).getLast?).bind
    (fun mp =>
      match mp.signal, mp.sma10 with
      | some s, some v => some (s, v)
      | _, _ => none)

/-- The most recent month-end SMA dated on-or-before `d` (last write wins). -/
def smaForDate (monthlySignals : List MonthlyDataPoint) (d : String) : Option ℚ :=
  monthlySignals.foldl (fun acc mp =>
    if mp.date ≤ d ∧ mp.sma10.isSome then mp.sma10 else acc) none

/-- Per-day state of the equity simulation loop. -/
structure TFState where
  trendFollowingValue : ℝ
  currentSignal : TrendSignal
  lastSignal : TrendSignal
  chartData : List TrendFollowingChartPoint
  signalDates : List SignalEvent

/-- Month-boundary signal update of the daily loop: on a month change adopt
the previous month's signal, and on a signal change apply the one-time
commission and record the `{date, signal}` event.  Returns
`(currentSignal, lastSignal, trendFollowingValue, signalDates)`. -/
noncomputable def tfSigUpdate (monthlySignals : List MonthlyDataPoint) (commission : ℝ)
    (prevMonth currentMonth eventDate : String)
    (currentSignal lastSignal : TrendSignal) (tv : ℝ) (signalDates : List SignalEvent) :
    TrendSignal × TrendSignal × ℝ × List SignalEvent :=
  if prevMonth ≠ currentMonth then
    match signalMapGet monthlySignals prevMonth with
    | some sigPair =>
      if sigPair.1 ≠ lastSignal then
        (sigPair.1, sigPair.1, tv * (1 - commission),
          signalDates ++ [{ date := eventDate, signal := sigPair.1 }])
      else (sigPair.1, lastSignal, tv, signalDates)
    | none => (currentSignal, lastSignal, tv, signalDates)
  else (currentSignal, lastSignal, tv, signalDates)

/-- Body of the daily loop of `calculateTrendFollowingEquity` for `i ≥ 1`:
on a month boundary adopt the previous month's signal (applying commission
and recording the event on a change), then compound the day's return. -/
noncomputable def tfDayStep (monthlySignals : List MonthlyDataPoint)
    (dailyCashReturn commission : ℝ) (basePrice : ℚ)
    (prev day : StooqDataPoint) (st : TFState) : TFState :=
  let currentMonth := day.date.take 7
  let prevMonth := prev.date.take 7
  let sigUpd : TrendSignal × TrendSignal × ℝ × List SignalEvent :=
    tfSigUpdate monthlySignals commission prevMonth currentMonth day.date
      st.currentSignal st.lastSignal st.trendFollowingValue st.signalDates
  let currentSignal := sigUpd.1
  let lastSignal := sigUpd.2.1
  let tv := sigUpd.2.2.1
  let signalDates := sigUpd.2.2.2
  let dailyReturn : ℚ := (day.close - prev.close) / prev.close
  let buyHoldValue : ℚ := day.close / basePrice
  let tv2 : ℝ :=
    if currentSignal = TrendSignal.BUY then tv * (1 + (dailyReturn : ℝ))
    else tv * (1 + dailyCashReturn)
  let normalizedSma10 := (smaForDate monthlySignals day.date).map (fun s => s / basePrice)
  let chartPoint : TrendFollowingChartPoint :=
    { date := day.date, buyHold := buyHoldValue, trendFollowing := tv2,
      sma10 := normalizedSma10, signal := currentSignal }
  { trendFollowingValue := tv2,
    currentSignal := currentSignal,
    lastSignal := lastSignal,
    chartData := st.chartData ++ [chartPoint],
    signalDates := signalDates }

/-- The daily loop over `relevantDaily[1..]`, carrying the previous day. -/
noncomputable def tfLoop (monthlySignals : List MonthlyDataPoint)
    (dailyCashReturn commission : ℝ) (basePrice : ℚ) :
    StooqDataPoint → List StooqDataPoint → TFState → TFState
  | _, [], st => st
  | prev, day :: rest, st =>
    tfLoop monthlySignals dailyCashReturn commission basePrice day rest
      (tfDayStep monthlySignals dailyCashReturn commission basePrice prev day st)

/-- `calculateTrendFollowingEquity(dailyData, monthlySignals, riskFreeRate,
commission)` (statistics.ts 811–941). -/
noncomputable def calculateTrendFollowingEquity (dailyData : List StooqDataPoint)
    (monthlySignals : List MonthlyDataPoint) (riskFreeRate commission : ℝ) :
    List TrendFollowingChartPoint × List SignalEvent :=
  let dailyCashReturn : ℝ := Real.rpow (1 + riskFreeRate) (1 / 252) - 1
  if dailyData.length = 0 ∨ monthlySignals.length < 10 then ([], [])
  else
    let sortedDaily := jsSortByDate dailyData
    match (monthlySignals.find? (fun mp => mp.signal.isSome)).map (fun mp => mp.date) with
    | none => ([], [])
    | some firstSignalDate =>
      let startIndex := sortedDaily.findIdx (fun d => strLe firstSignalDate d.date)
      if sortedDaily.length ≤ startIndex then ([], [])
      else
        match sortedDaily.drop startIndex with
        | [] => ([], [])
        | day0 :: rest =>
          let basePrice := day0.close
          let currentSignal0 := monthlySignals.foldl
            (fun acc mp =>
              if mp.signal.isSome ∧ mp.date ≤ day0.date then mp.signal.getD acc else acc)
            TrendSignal.SELL
          let chartPoint0 : TrendFollowingChartPoint :=
            { date := day0.date, buyHold := day0.close / basePrice, trendFollowing := 1,
              sma10 := (smaForDate monthlySignals day0.date).map (fun s => s / basePrice),
              signal := currentSignal0 }
          let st0 : TFState := {
            trendFollowingValue := 1,
            currentSignal := currentSignal0,
            lastSignal := currentSignal0,
            chartData := [chartPoint0],
            signalDates := [] }
          let stFinal := tfLoop monthlySignals dailyCashReturn commission basePrice day0 rest st0
          (stFinal.chartData, stFinal.signalDates)

/-- `TrendFollowingDrawdownPoint` in `types.ts`. -/
structure TrendFollowingDrawdownPoint where
  date : String
  buyHoldDrawdown : ℚ
  trendFollowingDrawdown : ℝ

/-- `calculateTrendFollowingDrawdowns(chartData)` (statistics.ts 946–978). -/
noncomputable def calculateTrendFollowingDrawdowns
    (chartData : List TrendFollowingChartPoint) : List TrendFollowingDrawdownPoint :=
  match chartData with
  | [] => []
  | c0 :: _ =>
    (chartData.foldl (fun (st : ℚ × ℝ × List TrendFollowingDrawdownPoint) point =>
      let bhPeak := if st.1 < point.buyHold then point.buyHold else st.1
      let tfPeak := if st.2.1 < point.trendFollowing then point.trendFollowing else st.2.1
      let ddPoint : TrendFollowingDrawdownPoint :=
        { date := point.date,
          buyHoldDrawdown := -((bhPeak - point.buyHold) / bhPeak) * 100,
          trendFollowingDrawdown := -((tfPeak - point.trendFollowing) / tfPeak) * 100 }
      (bhPeak, tfPeak, st.2.2 ++ [ddPoint]))
      (c0.buyHold, c0.trendFollowing, [])).2.2

/-- `StrategyStatistics` in `types.ts`. -/
structure StrategyStatistics where
  finalAmount : ℝ
  cagr : ℝ
  totalReturn : ℝ
  annualizedStd : ℝ
  maxDrawdown : ℝ
  currentDrawdown : ℝ
  sharpeRatio : ℝ

/-- `calculateStrategyStatistics(equityCurve, dates, riskFreeRate)`
(statistics.ts 983–1055). -/
noncomputable def calculateStrategyStatistics (equityCurve : List ℝ) (dates : List String)
    (riskFreeRate : ℝ) : StrategyStatistics :=
  if equityCurve.length < 2 then
    { finalAmount := 1, cagr := 0, totalReturn := 0, annualizedStd := 0,
      maxDrawdown := 0, currentDrawdown := 0, sharpeRatio := 0 }
  else
    let finalAmount := equityCurve.getLastD 0
    let totalReturn := (finalAmount - 1) * 100
    let years := yearsBetween (dates.headD "") (dates.getLastD "")
    let cagr : ℝ :=
      if 0 < years then (Real.rpow finalAmount (1 / (years : ℝ)) - 1) * 100 else 0
    let dailyReturns : List ℝ := (List.range (equityCurve.length - 1)).map (fun i =>
      ((equityCurve.getD (i + 1) 0) - equityCurve.getD i 0) / equityCurve.getD i 0)
    let annualizedStd : ℝ :=
      if 2 ≤ dailyReturns.length then
        let mean := dailyReturns.sum / (dailyReturns.length : ℝ)
        let variance := ((dailyReturns.map (fun r => (r - mean) ^ 2)).sum) /
          ((dailyReturns.length : ℝ) - 1)
        Real.sqrt variance * Real.sqrt (TRADING_DAYS_PER_YEAR : ℝ) * 100
      else 0
    let mdd := (equityCurve.foldl (fun (st : ℝ × ℝ) v =>
      let peak := if st.1 < v then v else st.1
      let dd := ((peak - v) / peak) * 100
      (peak, if st.2 < dd then dd else st.2)) (equityCurve.headD 0, 0)).2
    let currentPeak : ℝ :=
      match equityCurve with
      | [] => 0
      | x :: xs => xs.foldl max x
    let currentDrawdown := ((currentPeak - finalAmount) / currentPeak) * 100
    let sharpeRatio :=
      if 0 < annualizedStd then (cagr / 100 - riskFreeRate) / (annualizedStd / 100) else 0
    { finalAmount := finalAmount, cagr := cagr, totalReturn := totalReturn,
      annualizedStd := annualizedStd, maxDrawdown := mdd,
      currentDrawdown := currentDrawdown, sharpeRatio := sharpeRatio }

/-- `TrendFollowingAnalysis` in `types.ts`. -/
structure TrendFollowingAnalysis where
  chartData : List TrendFollowingChartPoint
  drawdownData : List TrendFollowingDrawdownPoint
  buyHoldStats : StrategyStatistics
  trendFollowingStats : StrategyStatistics
  currentSignal : TrendSignal
  signalDates : List SignalEvent

/-- `calculateTrendFollowingAnalysis(data, riskFreeRate, commission)`
(statistics.ts 1060–1110); `null` is `none`. -/
noncomputable def calculateTrendFollowingAnalysis (data : List StooqDataPoint)
    (riskFreeRate commission : ℝ) : Option TrendFollowingAnalysis :=
  if data.length < 252 then none
  else
    let monthlyPrices := extractMonthlyEndPrices data
    if monthlyPrices.length < 12 then none
    else
      let monthlySignals := calculateMonthlySignals monthlyPrices
      let res := calculateTrendFollowingEquity data monthlySignals riskFreeRate commission
      if res.1.length = 0 then none
      else
        let drawdownData := calculateTrendFollowingDrawdowns res.1
        let buyHoldEquity := res.1.map (fun p => (p.buyHold : ℝ))
        let trendFollowingEquity := res.1.map (fun p => p.trendFollowing)
        let dates := res.1.map (fun p => p.date)
        let buyHoldStats := calculateStrategyStatistics buyHoldEquity dates riskFreeRate
        let trendFollowingStats :=
          calculateStrategyStatistics trendFollowingEquity dates riskFreeRate
        let defaultChartPoint : TrendFollowingChartPoint :=
          { date := "", buyHold := 0, trendFollowing := 0, sma10 := none,
            signal := TrendSignal.SELL }
        some { chartData := res.1, drawdownData := drawdownData,
               buyHoldStats := buyHoldStats, trendFollowingStats := trendFollowingStats,
               currentSignal := (res.1.getLastD defaultChartPoint).signal,
               signalDates := res.2 }

/-- C2, as a predicate: two runs differing only in the commission rate have
identical signal transitions, and the higher commission yields a final
trend-following amount that is no larger. -/
def CommissionMonoProp (data : List StooqDataPoint) (r c1 c2 : ℝ) : Prop :=
  ∀ a1 a2, calculateTrendFollowingAnalysis data r c1 = some a1 →
    calculateTrendFollowingAnalysis data r c2 = some a2 →
    a1.signalDates = a2.signalDates ∧
    a2.trendFollowingStats.finalAmount ≤ a1.trendFollowingStats.finalAmount

/-- Pairing relation between two equity-simulation states that differ only in
the commission rate applied so far: identical signal state and transition log,
equally long charts, and an ordered pair of nonnegative equity values. -/
def TFRel (st1 st2 : TFState) : Prop :=
  st1.currentSignal = st2.currentSignal ∧
  st1.lastSignal = st2.lastSignal ∧
  st1.signalDates = st2.signalDates ∧
  st1.chartData.length = st2.chartData.length ∧
  0 ≤ st2.trendFollowingValue ∧
  st2.trendFollowingValue ≤ st1.trendFollowingValue

/-- The last chart point's trend-following value is the current equity value. -/
def TFLastInv (st : TFState) : Prop :=
  st.chartData ≠ [] ∧
  (st.chartData.map (·.trendFollowing)).getLastD 0 = st.trendFollowingValue

/-- The 13 consecutive month keys of the C2 witness series. -/
def tfMonths : List String :=
  ["2020-01", "2020-02", "2020-03", "2020-04", "2020-05", "2020-06", "2020-07",
   "2020-08", "2020-09", "2020-10", "2020-11", "2020-12", "2021-01"]

/-- The 20 day-of-month suffixes of the C2 witness series. -/
def tfDays : List String :=
  ["01", "02", "03", "04", "05", "06", "07", "08", "09", "10", "11", "12", "13",
   "14", "15", "16", "17", "18", "19", "20"]

/-- Concrete series for the C2 witness: 260 daily points at a constant close
of 100, spanning 13 calendar months, so `calculateTrendFollowingAnalysis`
succeeds on it. -/
def tfBigData : List StooqDataPoint :=
  (tfMonths.map (fun m => tfDays.map (fun d =>
    (⟨m ++ "-" ++ d, 100, 100, 100, 100, 0⟩ : StooqDataPoint)))).flatten

/-! ### Theorems -/

theorem strLe_iff (a b : String) : strLe a b = true ↔ a ≤ b := by
  rw [strLe, decide_eq_true_eq, String.le_iff_toList_le]
  rfl

theorem strLt_iff (a b : String) : strLt a b = true ↔ a < b := by
  rw [strLt, decide_eq_true_eq, String.lt_iff_toList_lt]
  rfl

theorem foldl_max_init_le {α : Type} [LinearOrder α] (l : List α) (a : α) :
    a ≤ l.foldl max a := by
  induction l generalizing a with
  | nil => exact le_refl a
  | cons x xs ih => exact le_trans (le_max_left a x) (ih (max a x))

theorem foldl_max_le_of_mem {α : Type} [LinearOrder α] {l : List α} {x : α} (a : α)
    (hx : x ∈ l) : x ≤ l.foldl max a := by
  induction l generalizing a with
  | nil => cases hx
  | cons y ys ih =>
    rcases List.mem_cons.mp hx with h | h
    · subst h
      exact le_trans (le_max_right a x) (foldl_max_init_le ys (max a x))
    · exact ih (max a y) h

theorem foldl_max_eq_init_or_mem {α : Type} [LinearOrder α] (l : List α) (a : α) :
    l.foldl max a = a ∨ l.foldl max a ∈ l := by
  induction l generalizing a with
  | nil => exact Or.inl rfl
  | cons x xs ih =>
    rcases ih (max a x) with h | h
    · rcases le_total a x with hax | hxa
      · right
        rw [List.foldl_cons, h, max_eq_right hax]
        exact List.mem_cons_self x xs
      · left
        rw [List.foldl_cons, h, max_eq_left hxa]
    · exact Or.inr (List.mem_cons_of_mem x h)

theorem ddStep_if_eq_max (m c : ℚ) : (if m < c then c else m) = max m c := by
  rcases lt_or_ge m c with h | h
  · rw [if_pos h, max_eq_right (le_of_lt h)]
  · rw [if_neg (not_lt.mpr h), max_eq_left h]

theorem ddFold_data_spec (l : List StooqDataPoint) (st : DDState) :
    (l.foldl ddStep st).ddata = st.ddata ++ (List.range l.length).map (ddAt l st.peak) := by
  induction l generalizing st with
  | nil => simp
  | cons x xs ih =>
    rw [List.foldl_cons, ih]
    have hpeak : (ddStep st x).peak = max st.peak x.close := by
      simp only [ddStep, ddStep_if_eq_max]
    have hdd : (ddStep st x).ddata = st.ddata ++ [ddAt (x :: xs) st.peak 0] := by
      simp only [ddStep, ddStep_if_eq_max, ddAt]
      simp
    rw [hdd, hpeak]
    have hmaps : (List.range xs.length).map (ddAt xs (max st.peak x.close)) =
        (List.range xs.length).map (ddAt (x :: xs) st.peak ∘ fun i => i + 1) :=
      List.map_congr_left (fun i _ => by
        simp only [Function.comp_apply, ddAt, List.getD_cons_succ, List.take_succ_cons,
          List.map_cons, List.foldl_cons])
    rw [hmaps, List.length_cons, List.range_succ_eq_map, List.map_cons, List.map_map,
      List.append_assoc, List.singleton_append]

theorem calculateDrawdownSeries_data_spec (d0 : StooqDataPoint) (tl : List StooqDataPoint) :
    (calculateDrawdownSeries (d0 :: tl)).data =
      (List.range (d0 :: tl).length).map (ddAt (d0 :: tl) d0.close) := by
  simp only [calculateDrawdownSeries]
  rw [ddFold_data_spec]
  simp

theorem range_map_getD {α β : Type} [Inhabited α] (l : List α) (f : α → β) :
    (List.range l.length).map (fun i => f (l.getD i default)) = l.map f := by
  induction l with
  | nil => simp
  | cons x xs ih =>
    rw [List.length_cons, List.range_succ_eq_map, List.map_cons, List.map_map, List.map_cons]
    have hmaps : (List.range xs.length).map ((fun i => f ((x :: xs).getD i default)) ∘ fun i => i + 1) =
        (List.range xs.length).map (fun i => f (xs.getD i default)) :=
      List.map_congr_left (fun i _ => by simp)
    rw [hmaps, ih]
    simp

/-- C1: for a non-empty series with positive closes, `calculateDrawdownSeries`
returns one drawdown point per input point in the same date order, each
drawdown is ≤ 0, and it is 0 exactly when the close equals the running peak
(the maximum close over indices 0..i). -/
theorem drawdownSeries_sign_and_peak (data : List StooqDataPoint)
    (hne : data ≠ []) (hpos : ∀ p ∈ data, 0 < p.close) :
    (calculateDrawdownSeries data).data.map (·.date) = data.map (·.date) ∧
    DrawdownSignProp data := by
  obtain ⟨d0, tl, rfl⟩ : ∃ d0 tl, data = d0 :: tl := by
    cases data with
    | nil => exact absurd rfl hne
    | cons a b => exact ⟨a, b, rfl⟩
  have hspec := calculateDrawdownSeries_data_spec d0 tl
  constructor
  · rw [hspec, List.map_map]
    exact range_map_getD (d0 :: tl) (·.date)
  · intro i hi
    have hgetD : (calculateDrawdownSeries (d0 :: tl)).data.getD i default =
        ddAt (d0 :: tl) d0.close i := by
      rw [hspec, List.getD_eq_getElem?_getD, List.getElem?_map]
      rw [List.getElem?_range hi]
      rfl
    rw [hgetD]
    set l := d0 :: tl with hl
    set peak := ((l.take (i + 1)).map (·.close)).foldl max d0.close with hpeak
    have hclose_mem : (l.getD i default).close ∈ (l.take (i + 1)).map (·.close) := by
      apply List.mem_map_of_mem
      have : i < (l.take (i + 1)).length := by
        rw [List.length_take]
        omega
      have := List.getElem_mem this
      rwa [List.getElem_take, ← List.getD_eq_getElem l default (by omega)] at this
    have hclose_le_peak : (l.getD i default).close ≤ peak :=
      foldl_max_le_of_mem d0.close hclose_mem
    have hpeak_pos : 0 < peak := by
      apply lt_of_lt_of_le (hpos d0 (List.mem_cons_self d0 tl))
      exact foldl_max_init_le _ d0.close
    have hpeak_src : peak = d0.close ∨ peak ∈ (l.take (i + 1)).map (·.close) :=
      foldl_max_eq_init_or_mem _ _
    have key : ∀ j, j ≤ i → (l.getD j default).close ≤ peak := by
      intro j hj
      apply foldl_max_le_of_mem
      apply List.mem_map_of_mem
      have hjl : j < (l.take (i + 1)).length := by
        rw [List.length_take]
        omega
      have := List.getElem_mem hjl
      rwa [List.getElem_take, ← List.getD_eq_getElem l default (by omega)] at this
    constructor
    · simp only [ddAt, ← hpeak]
      have h1 : 0 ≤ (peak - (l.getD i default).close) / peak := by
        apply div_nonneg (by linarith) (le_of_lt hpeak_pos)
      nlinarith
    · simp only [ddAt, ← hpeak]
      constructor
      · intro h0 j hj
        have hfrac : (peak - (l.getD i default).close) / peak = 0 := by
          by_contra hne'
          apply hne'
          have : -((peak - (l.getD i default).close) / peak) * 100 = 0 := h0
          linarith
        have : peak - (l.getD i default).close = 0 := by
          rw [div_eq_zero_iff] at hfrac
          rcases hfrac with h | h
          · exact h
          · exact absurd h (ne_of_gt hpeak_pos)
        have hip : (l.getD i default).close = peak := by linarith
        rw [hip]
        exact key j hj
      · intro hmax
        have hpeak_le : peak ≤ (l.getD i default).close := by
          rcases hpeak_src with h | h
          · rw [h]
            have h0 : (l.getD 0 default).close = d0.close := rfl
            rw [← h0]
            exact hmax 0 (Nat.zero_le i)
          · obtain ⟨q, hq_mem, hq_eq⟩ := List.mem_map.mp h
            obtain ⟨j, hjlen, hjq⟩ := List.getElem_of_mem hq_mem
            have hji : j ≤ i := by
              have := hjlen
              rw [List.length_take] at this
              omega
            have hjl : j < l.length := by
              have := hjlen
              rw [List.length_take] at this
              omega
            rw [List.getElem_take] at hjq
            rw [← hq_eq, ← hjq, ← List.getD_eq_getElem l default hjl]
            exact hmax j hji
        have : peak = (l.getD i default).close := le_antisymm hpeak_le hclose_le_peak
        rw [this]
        simp

/-- Witness for C1 at a concrete three-day series. -/
theorem drawdownSeries_sign_and_peak_witness :
    (calculateDrawdownSeries ddWitnessData).data.map (·.date) =
      ddWitnessData.map (·.date) ∧ DrawdownSignProp ddWitnessData :=
  drawdownSeries_sign_and_peak ddWitnessData (by decide) (by decide)

/-- C10: `calculateDrawdownSeries` on the empty array returns the sentinel
record rather than raising. -/
theorem drawdownSeries_empty :
    calculateDrawdownSeries [] =
      { data := [], maxDrawdown := 0, maxDrawdownDate := "", currentDrawdown := 0 } := rfl

/-! ### Rolling returns (`calculateRollingReturns`, statistics.ts 690–736)

`targetDate = new Date(endDate); targetDate.setFullYear(year − N);
toISOString().slice(0, 10)` keeps the month and day-of-month and renormalizes
an out-of-range day (only Feb 29 in a non-leap target year) into the next
month, exactly as the JavaScript `Date` does in UTC. -/

theorem rollingAdvance_le (data : List StooqDataPoint) (t : String) (i : ℕ) :
    ∀ s, rollingAdvance data t i s ≤ max s (i - 1) := by
  have aux : ∀ k s, i - s ≤ k → rollingAdvance data t i s ≤ max s (i - 1) := by
    intro k
    induction k with
    | zero =>
      intro s hs
      rw [rollingAdvance]
      split
      · next h => exact absurd h.1 (by omega)
      · exact le_max_left s (i - 1)
    | succ k ih =>
      intro s hs
      rw [rollingAdvance]
      split
      · next h =>
        have hrec := ih (s + 1) (by omega)
        have h1 : s + 1 ≤ i - 1 := by omega
        rw [max_eq_right h1] at hrec
        exact le_trans hrec (le_max_right s (i - 1))
      · exact le_max_left s (i - 1)
  exact fun s => aux (i - s) s (le_refl _)

theorem rollingAdvance_lt_length (data : List StooqDataPoint) (t : String) {i s : ℕ}
    (hs : s < data.length) (hi : i ≤ data.length) :
    rollingAdvance data t i s < data.length := by
  have h := rollingAdvance_le data t i s
  have hmax : max s (i - 1) < data.length := max_lt hs (by omega)
  omega

theorem rollingFold_props (data : List StooqDataPoint) :
    ∀ n, n ≤ data.length →
    (0 < data.length → ((List.range n).foldl (rollingStep data 1) (0, [])).1 < data.length) ∧
    ∀ p ∈ ((List.range n).foldl (rollingStep data 1) (0, [])).2,
      p.rollingCagr = (((p.endPrice / p.startPrice - 1) * 100 : ℚ) : ℝ) ∧
      p.startDate ≤ rollingTargetDate p.date 1 ∧
      (∃ j, j < data.length ∧ p.date = (data.getD j default).date ∧
        p.endPrice = (data.getD j default).close) ∧
      (∃ s, s < data.length ∧ p.startDate = (data.getD s default).date) := by
  intro n
  induction n with
  | zero =>
    intro _
    constructor
    · intro h
      simpa using h
    · intro p hp
      simp at hp
  | succ n ih =>
    intro hn
    obtain ⟨ihc, ihp⟩ := ih (by omega)
    have hlen0 : 0 < data.length := by omega
    have hcur := ihc hlen0
    rw [List.range_succ, List.foldl_append, List.foldl_cons, List.foldl_nil]
    constructor
    · intro _
      simp only [rollingStep]
      exact rollingAdvance_lt_length data _ hcur (by omega)
    · intro p hp
      simp only [rollingStep, List.mem_append] at hp
      rcases hp with hp | hp
      · exact ihp p hp
      · set s := rollingAdvance data
          (rollingTargetDate ((data.getD n default).date) 1) n
          ((List.range n).foldl (rollingStep data 1) (0, [])).1 with hs
        have hslt : s < data.length := rollingAdvance_lt_length data _ hcur (by omega)
        by_cases h1 : rollingTargetDate ((data.getD n default).date) 1 < (data.getD s default).date
        · rw [if_pos h1] at hp
          simp at hp
        · rw [if_neg h1] at hp
          by_cases h2 : (data.getD s default).close ≤ 0
          · rw [if_pos h2] at hp
            simp at hp
          · rw [if_neg h2] at hp
            by_cases h3 :
                yearsBetween ((data.getD s default).date) ((data.getD n default).date) ≤ 0
            · rw [if_pos h3] at hp
              simp at hp
            · rw [if_neg h3] at hp
              simp only [Option.toList, List.mem_singleton] at hp
              subst hp
              refine ⟨by simp, ?_, ⟨n, by omega, rfl, rfl⟩, ⟨s, hslt, rfl⟩⟩
              exact not_lt.mp h1

/-- C5: for a strictly date-ascending series and `windowYears = 1`,
`calculateRollingReturns` emits the simple percentage return (not a CAGR
formula) for every point, the resolved start is dated on-or-before the
one-calendar-year-back target, and indices whose target precedes the first
data point are skipped rather than zero-filled. -/
theorem rollingReturns_windowYears_one (data : List StooqDataPoint)
    (hsort : data.Pairwise (fun a b => a.date < b.date)) :
    RollingSimpleReturnProp data ∧ RollingSkipProp data := by
  by_cases hemp : data.length = 0
  · have hnil : data = [] := List.length_eq_zero.mp hemp
    subst hnil
    constructor
    · intro p hp
      rw [calculateRollingReturns] at hp
      simp at hp
    · intro hd hhd
      simp at hhd
  · have hres : calculateRollingReturns data 1 =
        ((List.range data.length).foldl (rollingStep data 1) (0, [])).2 := by
      rw [calculateRollingReturns, if_neg]
      push_neg
      exact ⟨hemp, by norm_num⟩
    have hfold := rollingFold_props data data.length (le_refl _)
    constructor
    · intro p hp
      rw [hres] at hp
      obtain ⟨hc, hle, _, _⟩ := hfold.2 p hp
      exact ⟨hc, hle⟩
    · intro hd hhd i hi htarget hmem
      rw [hres] at hmem
      obtain ⟨p, hp, hpdate⟩ := List.mem_map.mp hmem
      obtain ⟨_, hle, ⟨j, hj, hpj, _⟩, ⟨s, hslt, hps⟩⟩ := hfold.2 p hp
      have hgd : ∀ k, (hk : k < data.length) → data.getD k default = data[k] :=
        fun k hk => List.getD_eq_getElem data default hk
      have hsort' := List.pairwise_iff_getElem.mp hsort
      have hhead : data.getD 0 default = hd := by
        cases data with
        | nil => simp at hhd
        | cons a b =>
          have : a = hd := by simpa using hhd
          simpa using this
      have hfirst_le : ∀ k, k < data.length → hd.date ≤ (data.getD k default).date := by
        intro k hk
        cases k with
        | zero => rw [hhead]
        | succ m =>
          have h0 : 0 < data.length := by omega
          have := hsort' 0 (m + 1) h0 hk (by omega)
          rw [← hgd 0 h0, ← hgd (m + 1) hk, hhead] at this
          exact le_of_lt this
      have hij : i = j := by
        by_contra hne
        have hdij : (data.getD i default).date = (data.getD j default).date := by
          rw [← hpdate, hpj]
        rcases Nat.lt_or_ge i j with h | h
        · have := hsort' i j hi hj h
          rw [← hgd i hi, ← hgd j hj] at this
          exact absurd hdij (ne_of_lt this)
        · have hlt : j < i := by omega
          have := hsort' j i hj hi hlt
          rw [← hgd j hj, ← hgd i hi] at this
          exact absurd hdij.symm (ne_of_lt this)
      have hchain : hd.date ≤ p.startDate := by
        rw [hps]
        exact hfirst_le s hslt
      rw [hpdate] at hle
      exact absurd (lt_of_le_of_lt (le_trans hchain hle) htarget) (lt_irrefl hd.date)

/-- Witness for C5 at a concrete two-point series. -/
theorem rollingReturns_windowYears_one_witness :
    RollingSimpleReturnProp rollingWitnessData ∧ RollingSkipProp rollingWitnessData :=
  rollingReturns_windowYears_one rollingWitnessData
    (List.pairwise_pair.mpr (String.lt_iff_toList_lt.mpr (by decide)))

/-! Helper facts about bucket lookups and the ATH scan. -/

theorem jsSortByDate_eq_self {data : List StooqDataPoint}
    (h : data.Pairwise (fun a b => a.date ≤ b.date)) : jsSortByDate data = data :=
  List.Sorted.insertionSort_eq (h.imp (fun hab => (strLe_iff _ _).mpr hab))

theorem pairwise_dates_le : ∀ (data : List StooqDataPoint),
    sortedByDateLe data = true → data.Pairwise (fun a b => a.date ≤ b.date)
  | [] , _ => List.Pairwise.nil
  | [_], _ => List.pairwise_singleton _ _
  | a :: b :: rest, h => by
    rw [sortedByDateLe, Bool.and_eq_true] at h
    obtain ⟨hab, hrest⟩ := h
    have ih := pairwise_dates_le (b :: rest) hrest
    have hab' := (strLe_iff _ _).mp hab
    refine List.Pairwise.cons ?_ ih
    intro c hc
    rcases List.mem_cons.mp hc with rfl | hc'
    · exact hab'
    · exact le_trans hab' ((List.pairwise_cons.mp ih).1 c hc')

theorem pairwise_dates_lt : ∀ (data : List StooqDataPoint),
    sortedByDateLt data = true → data.Pairwise (fun a b => a.date < b.date)
  | [] , _ => List.Pairwise.nil
  | [_], _ => List.pairwise_singleton _ _
  | a :: b :: rest, h => by
    rw [sortedByDateLt, Bool.and_eq_true] at h
    obtain ⟨hab, hrest⟩ := h
    have ih := pairwise_dates_lt (b :: rest) hrest
    have hab' := (strLt_iff _ _).mp hab
    refine List.Pairwise.cons ?_ ih
    intro c hc
    rcases List.mem_cons.mp hc with rfl | hc'
    · exact hab'
    · exact lt_trans hab' ((List.pairwise_cons.mp ih).1 c hc')

theorem lastPriceByYearMonth_isSome_iff (data : List StooqDataPoint) (k : ℤ × ℤ) :
    (lastPriceByYearMonth data k).isSome = true ↔ monthBucket data k ≠ [] := by
  rw [lastPriceByYearMonth, Option.isSome_map', lastPointByYearMonth, List.getLast?_isSome]
  constructor
  · intro h hb
    rw [hb] at h
    simp at h
  · intro h hms
    apply h
    have := (List.perm_insertionSort
      (fun a b => strLe a.date b.date = true) (monthBucket data k)).length_eq
    rw [hms] at this
    exact List.length_eq_zero.mp this.symm

theorem lastPriceByYearMonth_mem {data : List StooqDataPoint} {k : ℤ × ℤ} {v : ℚ}
    (h : lastPriceByYearMonth data k = some v) : ∃ q ∈ data, q.close = v := by
  rw [lastPriceByYearMonth] at h
  cases hq : lastPointByYearMonth data k with
  | none => rw [hq] at h; simp at h
  | some q =>
    rw [hq] at h
    have hv : q.close = v := by simpa using h
    refine ⟨q, ?_, hv⟩
    have hmem : q ∈ (monthBucket data k).insertionSort (fun a b => strLe a.date b.date = true) :=
      List.mem_of_mem_getLast? hq
    rw [List.mem_insertionSort] at hmem
    exact List.mem_of_mem_filter hmem

theorem ball_lt_succ_cons (x : StooqDataPoint) (xs : List StooqDataPoint) (c : ℚ) (i : ℕ) :
    (∀ j, j < i + 1 → ((x :: xs).getD j default).close < c) ↔
      (x.close < c ∧ ∀ k, k < i → ((xs.getD k default)).close < c) := by
  constructor
  · intro h
    exact ⟨h 0 (by omega), fun k hk => h (k + 1) (by omega)⟩
  · rintro ⟨h0, hk⟩ j hj
    cases j with
    | zero => exact h0
    | succ k => exact hk k (by omega)

theorem countAux_cons (x : StooqDataPoint) (xs : List StooqDataPoint) (m : ℚ) (y : ℤ) :
    countAux (x :: xs) m y =
      countAux xs (max m x.close) y +
        (if dateYear x.date = y ∧ m < x.close then 1 else 0) := by
  rw [countAux, List.length_cons, List.range_succ_eq_map, List.countP_cons, List.countP_map]
  congr 1
  · rw [countAux]
    apply List.countP_congr
    intro i _
    simp only [Function.comp_apply, Bool.and_eq_true, decide_eq_true_eq, List.getD_cons_succ]
    rw [ball_lt_succ_cons]
    constructor
    · rintro ⟨⟨hy, hm⟩, hx, hpre⟩
      exact ⟨⟨hy, max_lt hm hx⟩, hpre⟩
    · rintro ⟨⟨hy, hmax⟩, hpre⟩
      exact ⟨⟨hy, (max_lt_iff.mp hmax).1⟩, (max_lt_iff.mp hmax).2, hpre⟩
  · simp only [Bool.and_eq_true, decide_eq_true_eq, List.getD_cons_zero]
    by_cases hc : dateYear x.date = y ∧ m < x.close
    · rw [if_pos ⟨⟨hc.1, hc.2⟩, fun j hj => absurd hj (Nat.not_lt_zero j)⟩, if_pos hc]
    · rw [if_neg (fun h => hc ⟨h.1.1, h.1.2⟩), if_neg hc]

theorem athFold (y : ℤ) : ∀ (l : List StooqDataPoint) (m : ℚ) (f : ℤ → ℕ),
    (l.foldl athStep (m, f)).2 y = f y + countAux l m y := by
  intro l
  induction l with
  | nil =>
    intro m f
    simp [countAux]
  | cons x xs ih =>
    intro m f
    rw [List.foldl_cons, countAux_cons]
    by_cases hx : m < x.close
    · have hstep : athStep (m, f) x =
          (x.close, fun z => if z = dateYear x.date then f z + 1 else f z) := by
        rw [athStep, if_pos hx]
      rw [hstep, ih, max_eq_right (le_of_lt hx)]
      by_cases hy : dateYear x.date = y
      · rw [if_pos hy.symm, if_pos ⟨hy, hx⟩]
        omega
      · rw [if_neg (fun h => hy h.symm), if_neg (fun h => hy h.1)]
        omega
    · have hstep : athStep (m, f) x = (m, f) := by
        rw [athStep, if_neg hx]
      rw [hstep, ih, max_eq_left (le_of_not_lt hx), if_neg (fun h => hx h.2)]
      omega

theorem athCounts_eq_spec (data : List StooqDataPoint)
    (hsort : data.Pairwise (fun a b => a.date ≤ b.date)) (y : ℤ) :
    athCounts data y = specAthCountAfterFirst data y := by
  rw [athCounts]
  simp only [jsSortByDate_eq_self hsort]
  cases data with
  | nil => simp [athFold, countAux, specAthCountAfterFirst]
  | cons d0 tl =>
    rw [athFold, List.headD_cons, Nat.zero_add, countAux, specAthCountAfterFirst]
    apply List.countP_congr
    intro i hi
    rw [List.mem_range] at hi
    simp only [Bool.and_eq_true, decide_eq_true_eq]
    cases i with
    | zero =>
      constructor
      · rintro ⟨⟨-, habs⟩, -⟩
        exact absurd habs (lt_irrefl _)
      · rintro ⟨⟨habs, -⟩, -⟩
        exact absurd habs (lt_irrefl 0)
    | succ k =>
      constructor
      · rintro ⟨⟨hy, -⟩, hpre⟩
        exact ⟨⟨by omega, hy⟩, hpre⟩
      · rintro ⟨⟨-, hy⟩, hpre⟩
        refine ⟨⟨hy, ?_⟩, hpre⟩
        have := hpre 0 (by omega)
        exact this

/-- C6 (amended): for a date-sorted series, each table row's `athCount` equals
the number of points in that calendar year strictly exceeding every prior
close in the full history — except that the very first point of the history
is never counted, since the running maximum is initialized to it. -/
theorem returnsTable_athCount (data : List StooqDataPoint)
    (hsort : data.Pairwise (fun a b => a.date ≤ b.date)) : AthCountMatchesSpec data := by
  intro yr hyr
  rw [calculateReturnsTable] at hyr
  by_cases hlen : data.length < 2
  · rw [if_pos hlen] at hyr
    simp at hyr
  · rw [if_neg hlen] at hyr
    obtain ⟨y, -, rfl⟩ := List.mem_map.mp hyr
    show athCounts data y = specAthCountAfterFirst data y
    exact athCounts_eq_spec data hsort y

/-- Witness for C6 (amended) at a concrete three-point series. -/
theorem returnsTable_athCount_witness : AthCountMatchesSpec athWitnessData :=
  returnsTable_athCount athWitnessData (pairwise_dates_le athWitnessData (by decide))

/-- Counterexample to C6 as literally stated: on a two-point series whose
first close is never exceeded, the code reports 0 all-time highs for 2023
while the claim's count (under which the first point vacuously exceeds every
prior close) is 1. -/
theorem returnsTable_athCount_cex :
    (calculateReturnsTable athCexData).years.map YearlyData.athCount = [0] ∧
    (tableYears athCexData).map (specAthCount athCexData) = [1] ∧
    (calculateReturnsTable athCexData).years.map YearlyData.athCount ≠
      (tableYears athCexData).map (specAthCount athCexData) := by
  refine ⟨by decide, by decide, by decide⟩

theorem getD_map_range {β : Type} (n : ℕ) (f : ℕ → β) (m : ℕ) (h : m < n) (d : β) :
    ((List.range n).map f).getD m d = f m := by
  rw [List.getD_eq_getElem ((List.range n).map f) d (by simpa using h)]
  rw [List.getElem_map, List.getElem_range]

theorem monthCell_fst (data : List StooqDataPoint) (hpos : ∀ p ∈ data, 0 < p.close)
    (y mI : ℤ) :
    (monthCell data y mI).1 =
      match lastPriceByYearMonth data (y, mI),
            lastPriceByYearMonth data (if mI = 0 then (y - 1, 11) else (y, mI - 1)) with
      | some cur, some pri => some ((cur / pri - 1) * 100)
      | _, _ => none := by
  simp only [monthCell]
  cases hcur : lastPriceByYearMonth data (y, mI) with
  | none =>
    have hb : monthBucket data (y, mI) = [] := by
      by_contra hb
      have := (lastPriceByYearMonth_isSome_iff data (y, mI)).mpr hb
      rw [hcur] at this
      simp at this
    rw [if_pos hb]
  | some c =>
    have hb : monthBucket data (y, mI) ≠ [] := by
      intro hb
      have h1 : (lastPriceByYearMonth data (y, mI)).isSome = true := by
        rw [hcur]
        rfl
      have h2 := (lastPriceByYearMonth_isSome_iff data (y, mI)).mp h1
      exact h2 hb
    rw [if_neg hb]
    cases hprior : lastPriceByYearMonth data (if mI = 0 then (y - 1, 11) else (y, mI - 1)) with
    | none => rfl
    | some p =>
      simp only
      congr 1
      have hppos : 0 < p := by
        obtain ⟨q, hq, hqe⟩ := lastPriceByYearMonth_mem hprior
        rw [← hqe]
        exact hpos q hq
      field_simp

/-- C7: each monthly cell of the returns table is
`(lastPrice[Y,M] / lastPrice[prior] − 1) × 100` with the prior key December of
the previous year for January, and is absent exactly when either endpoint
bucket has no data. -/
theorem returnsTable_monthly_rule (data : List StooqDataPoint)
    (hpos : ∀ p ∈ data, 0 < p.close) : MonthlyReturnSpec data := by
  intro yr hyr m hm
  rw [calculateReturnsTable] at hyr
  by_cases hlen : data.length < 2
  · rw [if_pos hlen] at hyr
    simp at hyr
  · rw [if_neg hlen] at hyr
    obtain ⟨y, -, rfl⟩ := List.mem_map.mp hyr
    have hyear : (mkYearly data y).year = y := rfl
    have hmr : (mkYearly data y).monthlyReturns =
        (List.range 12).map (fun (mm : ℕ) => (monthCell data y (mm : ℤ)).1) := by
      show ((List.range 12).map (fun (mm : ℕ) => monthCell data y (mm : ℤ))).map (·.1) = _
      rw [List.map_map]
      rfl
    rw [hmr, hyear, getD_map_range 12 _ m hm]
    exact monthCell_fst data hpos y (m : ℤ)

/-- Witness for C7 at a concrete three-point, two-month series. -/
theorem returnsTable_monthly_rule_witness : MonthlyReturnSpec monthlyWitnessData :=
  returnsTable_monthly_rule monthlyWitnessData (by decide)

theorem sessionStep_dailyReturns (data : List StooqDataPoint) (st : SessionAcc) (i : ℕ) :
    (sessionStep data st i).dailyReturns =
      st.dailyReturns ++
        [(((data.getD (i + 1) default).close - (data.getD i default).close) /
          (data.getD i default).close)] := by
  rw [sessionStep]
  split
  · rfl
  · split
    · rfl
    · rfl

theorem sessionFold_dailyReturns_length (data : List StooqDataPoint) :
    ∀ (l : List ℕ) (st : SessionAcc),
      ((l.foldl (sessionStep data) st).dailyReturns).length =
        st.dailyReturns.length + l.length := by
  intro l
  induction l with
  | nil => intro st; simp
  | cons x xs ih =>
    intro st
    rw [List.foldl_cons, ih, sessionStep_dailyReturns]
    simp
    omega

theorem sessionStats_dailyReturns_length (data : List StooqDataPoint) :
    (calculateSessionStats data).dailyReturns.length = data.length - 1 := by
  show ((List.range (data.length - 1)).foldl (sessionStep data)
    { dailyReturns := [], profitSessions := 0, lossSessions := 0,
      totalProfit := 0, totalLoss := 0 }).dailyReturns.length = data.length - 1
  rw [sessionFold_dailyReturns_length]
  simp

/-- C4: `calculateStatistics` fails with the "insufficient data" error exactly
when the input has fewer than two points, and returns a `Statistics` record
(never raising) on any input with at least two points. -/
theorem calculateStatistics_error_iff (ticker : String) (data : List StooqDataPoint) :
    (calculateStatistics ticker data =
        Except.error "Insufficient data to calculate statistics" ↔ data.length < 2) ∧
    (2 ≤ data.length → (calculateStatistics ticker data).isOk = true) := by
  by_cases h : data.length < 2
  · refine ⟨⟨fun _ => h, fun _ => ?_⟩, fun h2 => absurd h (by omega)⟩
    rw [calculateStatistics, if_pos h]
  · constructor
    · constructor
      · intro herr
        rw [calculateStatistics, if_neg h] at herr
        exact absurd herr (by simp)
      · intro hlt
        exact absurd hlt h
    · intro _
      rw [calculateStatistics, if_neg h]
      rfl

/-- Witness for C4: a two-point series yields a result without raising. -/
theorem calculateStatistics_error_iff_witness :
    (calculateStatistics "SPY" statsWitnessData).isOk = true :=
  (calculateStatistics_error_iff "SPY" statsWitnessData).2 (by decide)

/-- C9: with at least two points, degenerate inputs resolve to 0 by
convention: `cagr = 0` when the elapsed time is ≤ 0, `annualizedStd = 0` with
fewer than two daily returns, and `sharpeRatio = 0` when the annualized
volatility is 0. -/
theorem statistics_degenerate_conventions (ticker : String) (data : List StooqDataPoint)
    (h2 : 2 ≤ data.length) :
    ∃ s, calculateStatistics ticker data = Except.ok s ∧
      (yearsBetween (data.headD default).date (data.getLastD default).date ≤ 0 →
        s.cagr = 0) ∧
      ((calculateSessionStats data).dailyReturns.length < 2 → s.annualizedStd = 0) ∧
      (s.annualizedStd = 0 → s.sharpeRatio = 0) := by
  rw [calculateStatistics, if_neg (by omega)]
  refine ⟨_, rfl, ?_, ?_, ?_⟩
  · intro hy
    show (if 0 < yearsBetween (data.headD default).date (data.getLastD default).date then
        (Real.rpow (((data.getLastD default).close / (data.headD default).close : ℚ) : ℝ)
          (1 / ((yearsBetween (data.headD default).date (data.getLastD default).date : ℚ) : ℝ)) - 1)
          * 100
      else 0) = 0
    rw [if_neg (not_lt.mpr hy)]
  · intro hlen
    show calculateAnnualizedStd (calculateSessionStats data).dailyReturns * 100 = 0
    rw [calculateAnnualizedStd, if_pos hlen, zero_mul]
  · intro hstd
    have hstd' : calculateAnnualizedStd (calculateSessionStats data).dailyReturns = 0 := by
      have : calculateAnnualizedStd (calculateSessionStats data).dailyReturns * 100 = 0 := hstd
      linarith
    show (if 0 < calculateAnnualizedStd (calculateSessionStats data).dailyReturns then
        ((if 0 < yearsBetween (data.headD default).date (data.getLastD default).date then
            (Real.rpow (((data.getLastD default).close / (data.headD default).close : ℚ) : ℝ)
              (1 / ((yearsBetween (data.headD default).date (data.getLastD default).date : ℚ) : ℝ))
              - 1) * 100
          else 0) / 100 - RISK_FREE_RATE) /
          calculateAnnualizedStd (calculateSessionStats data).dailyReturns
      else 0) = 0
    rw [if_neg (by rw [hstd']; exact lt_irrefl 0)]

/-- Witness for C9: two same-date, equal-close points give zero CAGR, zero
volatility and zero Sharpe ratio by convention. -/
theorem statistics_degenerate_conventions_witness :
    Except.map Statistics.cagr (calculateStatistics "X" statsDegenWitnessData) = Except.ok 0 ∧
    Except.map Statistics.annualizedStd (calculateStatistics "X" statsDegenWitnessData) =
      Except.ok 0 ∧
    Except.map Statistics.sharpeRatio (calculateStatistics "X" statsDegenWitnessData) =
      Except.ok 0 := by
  obtain ⟨s, hs, hc, ha, hsh⟩ :=
    statistics_degenerate_conventions "X" statsDegenWitnessData (by decide)
  have hy : yearsBetween (statsDegenWitnessData.headD default).date
      (statsDegenWitnessData.getLastD default).date ≤ 0 := by
    show yearsBetween "2020-01-02" "2020-01-02" ≤ 0
    rw [yearsBetween, sub_self, zero_div]
  have hlen : (calculateSessionStats statsDegenWitnessData).dailyReturns.length < 2 := by
    rw [sessionStats_dailyReturns_length]
    decide
  have hstd := ha hlen
  refine ⟨?_, ?_, ?_⟩ <;> rw [hs] <;> simp only [Except.map]
  · rw [hc hy]
  · rw [hstd]
  · rw [hsh hstd]

theorem filterMap_eq_map_of_some {α β : Type} (l : List α) (F : α → Option β) (g : α → β)
    (h : ∀ x ∈ l, F x = some (g x)) : l.filterMap F = l.map g := by
  induction l with
  | nil => rfl
  | cons x xs ih =>
    rw [List.filterMap_cons, h x (List.mem_cons_self x xs),
      List.map_cons, ih (fun z hz => h z (List.mem_cons_of_mem x hz))]

theorem lookup_ticker_map (v : ℚ) :
    ∀ (l : List TickerData), (l.map (·.ticker)).Nodup →
      ∀ td ∈ l, (l.map (fun t => (t.ticker, v))).lookup td.ticker = some v := by
  intro l
  induction l with
  | nil =>
    intro _ td htd
    cases htd
  | cons t rest ih =>
    intro hnodup td htd
    rw [List.map_cons] at hnodup
    have hnd := List.nodup_cons.mp hnodup
    rcases List.mem_cons.mp htd with rfl | htd'
    · rw [List.map_cons]
      simp [List.lookup]
    · rw [List.map_cons]
      have hne : t.ticker ≠ td.ticker := by
        intro he
        exact hnd.1 (he ▸ List.mem_map_of_mem (·.ticker) htd')
      have hbeq : (td.ticker == t.ticker) = false :=
        beq_eq_false_iff_ne.mpr (fun he => hne he.symm)
      simp only [List.lookup, hbeq]
      exact ih hnd.2 td htd'

/-- C8: given two or more ticker series with distinct tickers, positive closes,
and some date covered by every series, the output row at the earliest common
start date carries exactly 100 for every ticker. -/
theorem normalize_common_start (ts : List TickerData)
    (h2 : 2 ≤ ts.length)
    (hnodup : (ts.map (·.ticker)).Nodup)
    (hpos : ∀ td ∈ ts, ∀ p ∈ td.data, 0 < p.close) :
    NormalizeBaseProp ts := by
  intro c hc
  have hc_mem : c ∈ allSortedDates ts := List.mem_of_find?_eq_some hc
  have hc_cov : coversAll ts c = true := List.find?_some hc
  have hcov : ∀ td ∈ ts, (tickerPriceAt td c).isSome = true := by
    intro td htd
    exact List.all_eq_true.mp hc_cov td htd
  have hlen0 : ¬ ts.length = 0 := by omega
  simp only [normalizeDataForChart]
  rw [if_neg hlen0, hc]
  simp only [Option.getD_some]
  have hexists : ∃ x ∈ allSortedDates ts, decide (x = c) = true := ⟨c, hc_mem, by simp⟩
  have hidx_lt : (allSortedDates ts).findIdx (fun d => decide (d = c)) <
      (allSortedDates ts).length :=
    List.findIdx_lt_length_of_exists hexists
  have hidx_eq :
      (allSortedDates ts)[(allSortedDates ts).findIdx (fun d => decide (d = c))] = c := by
    have := @List.findIdx_getElem _ (fun d => decide (d = c)) (allSortedDates ts) hidx_lt
    simpa using this
  rw [List.drop_eq_getElem_cons hidx_lt, hidx_eq, List.filterMap_cons]
  have hF : ∀ td ∈ ts,
      (tickerPriceAt td c).map (fun price =>
        (td.ticker, if ts.length = 1 then price
          else (price / jsOrPrice (tickerPriceAt td c) ((td.data.headD default).close)) * 100)) =
      some (td.ticker, (100 : ℚ)) := by
    intro td htd
    obtain ⟨p, hp⟩ := Option.isSome_iff_exists.mp (hcov td htd)
    have hp_pos : 0 < p := by
      rw [tickerPriceAt] at hp
      cases hq : (td.data.filter (fun q => decide (q.date = c))).getLast? with
      | none =>
        rw [hq] at hp
        simp at hp
      | some q =>
        rw [hq] at hp
        have hqv : q.close = p := by simpa using hp
        have hq_mem : q ∈ td.data := List.mem_of_mem_filter (List.mem_of_mem_getLast? hq)
        rw [← hqv]
        exact hpos td htd q hq_mem
    rw [hp]
    simp only [Option.map_some']
    have hne1 : ¬ ts.length = 1 := by omega
    rw [if_neg hne1]
    simp only [jsOrPrice]
    rw [if_neg (ne_of_gt hp_pos), div_self (ne_of_gt hp_pos), one_mul]
  have hvals : ts.filterMap (fun td =>
      (tickerPriceAt td c).map (fun price =>
        (td.ticker, if ts.length = 1 then price
          else (price / jsOrPrice (tickerPriceAt td c) ((td.data.headD default).close)) * 100))) =
      ts.map (fun t => (t.ticker, (100 : ℚ))) :=
    filterMap_eq_map_of_some ts _ _ hF
  rw [hvals]
  have hlen_pos : 0 < (ts.map (fun t => (t.ticker, (100 : ℚ)))).length := by
    rw [List.length_map]
    omega
  rw [if_pos hlen_pos]
  refine ⟨{ date := c, values := ts.map (fun t => (t.ticker, (100 : ℚ))) },
    List.mem_cons_self _ _, rfl, ?_⟩
  intro td htd
  exact lookup_ticker_map 100 ts hnodup td htd

/-- Witness for C8 at a concrete two-ticker input. -/
theorem normalize_common_start_witness : NormalizeBaseProp normalizeWitnessData :=
  normalize_common_start normalizeWitnessData (by decide) (by decide) (by decide)

/-! Structural facts about the trend-following simulation. -/

theorem tfDayStep_chart_length (ms : List MonthlyDataPoint) (dcr c : ℝ) (bp : ℚ)
    (prev day : StooqDataPoint) (st : TFState) :
    (tfDayStep ms dcr c bp prev day st).chartData.length = st.chartData.length + 1 := by
  simp [tfDayStep]

theorem tfLoop_chart_length (ms : List MonthlyDataPoint) (dcr c : ℝ) (bp : ℚ) :
    ∀ (l : List StooqDataPoint) (prev : StooqDataPoint) (st : TFState),
      (tfLoop ms dcr c bp prev l st).chartData.length = st.chartData.length + l.length := by
  intro l
  induction l with
  | nil =>
    intro prev st
    simp [tfLoop]
  | cons day rest ih =>
    intro prev st
    rw [tfLoop, ih, tfDayStep_chart_length, List.length_cons]
    omega

theorem calculateMonthlySignals_length (mp : List MonthlyDataPoint) :
    (calculateMonthlySignals mp).length = mp.length := by
  simp [calculateMonthlySignals]

theorem monthlySignals_signal_some (mp : List MonthlyDataPoint) (i : ℕ)
    (hi : i < mp.length) (h9 : 9 ≤ i) :
    ((calculateMonthlySignals mp).getD i default).signal.isSome = true := by
  have hlen : (calculateMonthlySignals mp).length = mp.length :=
    calculateMonthlySignals_length mp
  rw [List.getD_eq_getElem _ default (by omega)]
  simp only [calculateMonthlySignals, List.getElem_map, List.getElem_range]
  rw [if_pos h9]
  rfl

theorem extractMonthlyEndPrices_date_mem {data : List StooqDataPoint} {x : MonthlyDataPoint}
    (hx : x ∈ extractMonthlyEndPrices data) : ∃ q ∈ data, q.date = x.date := by
  rw [extractMonthlyEndPrices] at hx
  by_cases h0 : data.length = 0
  · rw [if_pos h0] at hx
    cases hx
  · rw [if_neg h0] at hx
    obtain ⟨k, hk_mem, hk_eq⟩ := List.mem_map.mp hx
    have hk' : k ∈ (jsSortByDate data).map (fun p => p.date.take 7) := by
      rw [List.mem_insertionSort] at hk_mem
      exact List.mem_dedup.mp hk_mem
    obtain ⟨q0, hq0_mem, hq0_eq⟩ := List.mem_map.mp hk'
    have hq0f : q0 ∈ (jsSortByDate data).filter (fun p => decide (p.date.take 7 = k)) := by
      rw [List.mem_filter]
      exact ⟨hq0_mem, by simp [hq0_eq]⟩
    cases hlast : ((jsSortByDate data).filter (fun p => decide (p.date.take 7 = k))).getLast? with
    | none =>
      have hne : (jsSortByDate data).filter (fun p => decide (p.date.take 7 = k)) ≠ [] := by
        intro hnil
        rw [hnil] at hq0f
        cases hq0f
      rw [← List.getLast?_isSome, hlast] at hne
      simp at hne
    | some q =>
      rw [hlast] at hk_eq
      refine ⟨q, ?_, ?_⟩
      · have hqm := List.mem_of_mem_filter (List.mem_of_mem_getLast? hlast)
        rw [jsSortByDate] at hqm
        exact ((List.perm_insertionSort _ data).mem_iff).mp hqm
      · rw [← hk_eq]

theorem tfEquity_chart_nonempty (data : List StooqDataPoint) (r c : ℝ)
    (h252 : 252 ≤ data.length) (h12 : 12 ≤ (extractMonthlyEndPrices data).length) :
    (calculateTrendFollowingEquity data
      (calculateMonthlySignals (extractMonthlyEndPrices data)) r c).1 ≠ [] := by
  have hms_len : (calculateMonthlySignals (extractMonthlyEndPrices data)).length =
      (extractMonthlyEndPrices data).length :=
    calculateMonthlySignals_length _
  have h10 : ¬ (data.length = 0 ∨
      (calculateMonthlySignals (extractMonthlyEndPrices data)).length < 10) := by
    push_neg
    exact ⟨by omega, by omega⟩
  simp only [calculateTrendFollowingEquity]
  rw [if_neg h10]
  have h9lt : 9 < (calculateMonthlySignals (extractMonthlyEndPrices data)).length := by omega
  have hsig9 := monthlySignals_signal_some (extractMonthlyEndPrices data) 9 (by omega)
    (le_refl 9)
  have hfind : ((calculateMonthlySignals (extractMonthlyEndPrices data)).find?
      (fun mp => mp.signal.isSome)).isSome = true := by
    rw [List.find?_isSome]
    refine ⟨(calculateMonthlySignals (extractMonthlyEndPrices data)).getD 9 default, ?_, hsig9⟩
    rw [List.getD_eq_getElem _ default h9lt]
    exact List.getElem_mem h9lt
  obtain ⟨mpF, hmpF⟩ := Option.isSome_iff_exists.mp hfind
  simp only [hmpF, Option.map_some']
  have hmpF_mem : mpF ∈ calculateMonthlySignals (extractMonthlyEndPrices data) :=
    List.mem_of_find?_eq_some hmpF
  have hdate : ∃ q ∈ data, q.date = mpF.date := by
    obtain ⟨i, hi_mem, hi_eq⟩ := List.mem_map.mp (by
      simpa only [calculateMonthlySignals] using hmpF_mem)
    have hi_lt : i < (extractMonthlyEndPrices data).length := by
      rw [← List.mem_range]
      exact hi_mem
    have hdate_eq : mpF.date = ((extractMonthlyEndPrices data).getD i default).date := by
      rw [← hi_eq]
    have hmem : (extractMonthlyEndPrices data).getD i default ∈ extractMonthlyEndPrices data := by
      rw [List.getD_eq_getElem _ default hi_lt]
      exact List.getElem_mem hi_lt
    obtain ⟨q, hq_mem, hq_eq⟩ := extractMonthlyEndPrices_date_mem hmem
    exact ⟨q, hq_mem, by rw [hq_eq, hdate_eq]⟩
  obtain ⟨q, hq_mem, hq_eq⟩ := hdate
  have hq_sorted : q ∈ jsSortByDate data := by
    rw [jsSortByDate]
    exact ((List.perm_insertionSort _ data).mem_iff).mpr hq_mem
  have hfindIdx : (jsSortByDate data).findIdx (fun d => strLe mpF.date d.date) <
      (jsSortByDate data).length := by
    apply List.findIdx_lt_length_of_exists
    exact ⟨q, hq_sorted, by rw [hq_eq]; exact (strLe_iff _ _).mpr (le_refl _)⟩
  rw [if_neg (by omega)]
  obtain ⟨day0, rest, hdrop⟩ : ∃ day0 rest, (jsSortByDate data).drop
      ((jsSortByDate data).findIdx (fun d => strLe mpF.date d.date)) = day0 :: rest := by
    cases hd : (jsSortByDate data).drop
        ((jsSortByDate data).findIdx (fun d => strLe mpF.date d.date)) with
    | nil =>
      exfalso
      rw [List.drop_eq_nil_iff] at hd
      omega
    | cons a b => exact ⟨a, b, rfl⟩
  simp only [hdrop]
  intro hnil
  have hl := congrArg List.length hnil
  rw [tfLoop_chart_length] at hl
  simp at hl

/-- C3: `calculateTrendFollowingAnalysis` returns a result exactly when the
input has at least 252 daily points and at least 12 distinct month buckets;
otherwise it returns `none` (never an error — the embedding is total). -/
theorem trendFollowingAnalysis_isSome_iff (data : List StooqDataPoint) (r c : ℝ) :
    (calculateTrendFollowingAnalysis data r c).isSome = true ↔
      (252 ≤ data.length ∧ 12 ≤ (extractMonthlyEndPrices data).length) := by
  simp only [calculateTrendFollowingAnalysis]
  by_cases h1 : data.length < 252
  · rw [if_pos h1]
    simp
    omega
  · rw [if_neg h1]
    by_cases h2 : (extractMonthlyEndPrices data).length < 12
    · rw [if_pos h2]
      simp
      omega
    · rw [if_neg h2]
      have hne := tfEquity_chart_nonempty data r c (by omega) (by omega)
      have hlen : ¬ (calculateTrendFollowingEquity data
          (calculateMonthlySignals (extractMonthlyEndPrices data)) r c).1.length = 0 := by
        intro h
        exact hne (List.length_eq_zero.mp h)
      rw [if_neg hlen]
      simp
      omega

theorem tfDayStep_last (ms : List MonthlyDataPoint) (dcr c : ℝ) (bp : ℚ)
    (prev day : StooqDataPoint) (st : TFState) :
    TFLastInv (tfDayStep ms dcr c bp prev day st) := by
  constructor
  · simp [tfDayStep]
  · simp only [tfDayStep, TFLastInv, List.map_append, List.map_cons, List.map_nil]
    rw [List.getLastD_concat]

theorem tfLoop_last (ms : List MonthlyDataPoint) (dcr c : ℝ) (bp : ℚ) :
    ∀ (l : List StooqDataPoint) (prev : StooqDataPoint) (st : TFState),
      TFLastInv st → TFLastInv (tfLoop ms dcr c bp prev l st) := by
  intro l
  induction l with
  | nil =>
    intro prev st h
    simpa [tfLoop] using h
  | cons day rest ih =>
    intro prev st h
    rw [tfLoop]
    exact ih day _ (tfDayStep_last ms dcr c bp prev day st)

theorem tfSigUpdate_pair (ms : List MonthlyDataPoint) (c1 c2 : ℝ)
    (pm cm d : String) (cs ls : TrendSignal) (tv1 tv2 : ℝ) (sd : List SignalEvent)
    (h0 : 0 ≤ tv2) (hle : tv2 ≤ tv1) (hc2 : c2 ≤ 1) (hcc : c1 ≤ c2) :
    (tfSigUpdate ms c1 pm cm d cs ls tv1 sd).1 = (tfSigUpdate ms c2 pm cm d cs ls tv2 sd).1 ∧
    (tfSigUpdate ms c1 pm cm d cs ls tv1 sd).2.1 =
      (tfSigUpdate ms c2 pm cm d cs ls tv2 sd).2.1 ∧
    (tfSigUpdate ms c1 pm cm d cs ls tv1 sd).2.2.2 =
      (tfSigUpdate ms c2 pm cm d cs ls tv2 sd).2.2.2 ∧
    0 ≤ (tfSigUpdate ms c2 pm cm d cs ls tv2 sd).2.2.1 ∧
    (tfSigUpdate ms c2 pm cm d cs ls tv2 sd).2.2.1 ≤
      (tfSigUpdate ms c1 pm cm d cs ls tv1 sd).2.2.1 := by
  rw [tfSigUpdate, tfSigUpdate]
  by_cases hm : pm ≠ cm
  · rw [if_pos hm, if_pos hm]
    cases hsg : signalMapGet ms pm with
    | none => exact ⟨rfl, rfl, rfl, h0, hle⟩
    | some sigPair =>
      dsimp only
      by_cases hchg : sigPair.1 ≠ ls
      · rw [if_pos hchg, if_pos hchg]
        refine ⟨rfl, rfl, rfl, ?_, ?_⟩
        · exact mul_nonneg h0 (by linarith)
        · calc tv2 * (1 - c2) ≤ tv1 * (1 - c2) :=
                mul_le_mul_of_nonneg_right hle (by linarith)
            _ ≤ tv1 * (1 - c1) :=
                mul_le_mul_of_nonneg_left (by linarith) (le_trans h0 hle)
      · rw [if_neg hchg, if_neg hchg]
        exact ⟨rfl, rfl, rfl, h0, hle⟩
  · rw [if_neg hm, if_neg hm]
    exact ⟨rfl, rfl, rfl, h0, hle⟩

theorem tfDayStep_currentSignal (ms : List MonthlyDataPoint) (dcr c : ℝ) (bp : ℚ)
    (prev day : StooqDataPoint) (st : TFState) :
    (tfDayStep ms dcr c bp prev day st).currentSignal =
      (tfSigUpdate ms c (prev.date.take 7) (day.date.take 7) day.date
        st.currentSignal st.lastSignal st.trendFollowingValue st.signalDates).1 := by
  rw [tfDayStep]

theorem tfDayStep_lastSignal (ms : List MonthlyDataPoint) (dcr c : ℝ) (bp : ℚ)
    (prev day : StooqDataPoint) (st : TFState) :
    (tfDayStep ms dcr c bp prev day st).lastSignal =
      (tfSigUpdate ms c (prev.date.take 7) (day.date.take 7) day.date
        st.currentSignal st.lastSignal st.trendFollowingValue st.signalDates).2.1 := by
  rw [tfDayStep]

theorem tfDayStep_signalDates (ms : List MonthlyDataPoint) (dcr c : ℝ) (bp : ℚ)
    (prev day : StooqDataPoint) (st : TFState) :
    (tfDayStep ms dcr c bp prev day st).signalDates =
      (tfSigUpdate ms c (prev.date.take 7) (day.date.take 7) day.date
        st.currentSignal st.lastSignal st.trendFollowingValue st.signalDates).2.2.2 := by
  rw [tfDayStep]

theorem tfDayStep_tv (ms : List MonthlyDataPoint) (dcr c : ℝ) (bp : ℚ)
    (prev day : StooqDataPoint) (st : TFState) :
    (tfDayStep ms dcr c bp prev day st).trendFollowingValue =
      (if (tfSigUpdate ms c (prev.date.take 7) (day.date.take 7) day.date
            st.currentSignal st.lastSignal st.trendFollowingValue st.signalDates).1 =
          TrendSignal.BUY then
        (tfSigUpdate ms c (prev.date.take 7) (day.date.take 7) day.date
          st.currentSignal st.lastSignal st.trendFollowingValue st.signalDates).2.2.1 *
          (1 + (((day.close - prev.close) / prev.close : ℚ) : ℝ))
      else
        (tfSigUpdate ms c (prev.date.take 7) (day.date.take 7) day.date
          st.currentSignal st.lastSignal st.trendFollowingValue st.signalDates).2.2.1 *
          (1 + dcr)) := by
  rw [tfDayStep]

theorem tfDayStep_rel (ms : List MonthlyDataPoint) (dcr c1 c2 : ℝ) (bp : ℚ)
    (prev day : StooqDataPoint) (st1 st2 : TFState)
    (hprev : 0 < prev.close) (hday : 0 < day.close)
    (hcash : 0 ≤ 1 + dcr) (hc2 : c2 ≤ 1) (hcc : c1 ≤ c2)
    (hrel : TFRel st1 st2) :
    TFRel (tfDayStep ms dcr c1 bp prev day st1) (tfDayStep ms dcr c2 bp prev day st2) := by
  obtain ⟨hcur, hlast, hsig, hlen, h0, hle⟩ := hrel
  have hf_buy : (0 : ℝ) ≤ 1 + (((day.close - prev.close) / prev.close : ℚ) : ℝ) := by
    have hq : (0 : ℚ) ≤ 1 + (day.close - prev.close) / prev.close := by
      have heq : 1 + (day.close - prev.close) / prev.close = day.close / prev.close := by
        field_simp
      rw [heq]
      positivity
    exact_mod_cast hq
  obtain ⟨hu1, hu2, hu4, hu0, hule⟩ := tfSigUpdate_pair ms c1 c2 (prev.date.take 7)
    (day.date.take 7) day.date st2.currentSignal st2.lastSignal
    st1.trendFollowingValue st2.trendFollowingValue st2.signalDates h0 hle hc2 hcc
  refine ⟨?_, ?_, ?_, ?_, ?_, ?_⟩
  · rw [tfDayStep_currentSignal, tfDayStep_currentSignal, hcur, hlast, hsig]
    exact hu1
  · rw [tfDayStep_lastSignal, tfDayStep_lastSignal, hcur, hlast, hsig]
    exact hu2
  · rw [tfDayStep_signalDates, tfDayStep_signalDates, hcur, hlast, hsig]
    exact hu4
  · rw [tfDayStep_chart_length, tfDayStep_chart_length, hlen]
  · rw [tfDayStep_tv]
    by_cases hb : (tfSigUpdate ms c2 (prev.date.take 7) (day.date.take 7) day.date
        st2.currentSignal st2.lastSignal st2.trendFollowingValue st2.signalDates).1 =
        TrendSignal.BUY
    · rw [if_pos hb]
      exact mul_nonneg hu0 hf_buy
    · rw [if_neg hb]
      exact mul_nonneg hu0 hcash
  · rw [tfDayStep_tv, tfDayStep_tv, hcur, hlast, hsig, hu1]
    by_cases hb : (tfSigUpdate ms c2 (prev.date.take 7) (day.date.take 7) day.date
        st2.currentSignal st2.lastSignal st2.trendFollowingValue st2.signalDates).1 =
        TrendSignal.BUY
    · rw [if_pos hb, if_pos hb]
      exact mul_le_mul_of_nonneg_right hule hf_buy
    · rw [if_neg hb, if_neg hb]
      exact mul_le_mul_of_nonneg_right hule hcash

theorem tfLoop_rel (ms : List MonthlyDataPoint) (dcr c1 c2 : ℝ) (bp : ℚ)
    (hcash : 0 ≤ 1 + dcr) (hc2 : c2 ≤ 1) (hcc : c1 ≤ c2) :
    ∀ (l : List StooqDataPoint) (prev : StooqDataPoint) (st1 st2 : TFState),
      0 < prev.close → (∀ p ∈ l, 0 < p.close) → TFRel st1 st2 →
      TFRel (tfLoop ms dcr c1 bp prev l st1) (tfLoop ms dcr c2 bp prev l st2) := by
  intro l
  induction l with
  | nil =>
    intro prev st1 st2 _ _ h
    simpa [tfLoop] using h
  | cons day rest ih =>
    intro prev st1 st2 hprev hl hrel
    rw [tfLoop, tfLoop]
    exact ih day _ _ (hl day (List.mem_cons_self day rest))
      (fun p hp => hl p (List.mem_cons_of_mem day hp))
      (tfDayStep_rel ms dcr c1 c2 bp prev day st1 st2 hprev
        (hl day (List.mem_cons_self day rest)) hcash hc2 hcc hrel)

theorem calcStratStats_finalAmount (e : List ℝ) (d : List String) (r : ℝ) :
    (calculateStrategyStatistics e d r).finalAmount =
      if e.length < 2 then 1 else e.getLastD 0 := by
  by_cases h : e.length < 2
  · simp only [calculateStrategyStatistics]
    rw [if_pos h, if_pos h]
  · simp only [calculateStrategyStatistics]
    rw [if_neg h, if_neg h]

theorem tfFinal_pair (ms : List MonthlyDataPoint) (dcr c1 c2 : ℝ) (bp : ℚ)
    (day0 : StooqDataPoint) (rest : List StooqDataPoint) (st0 : TFState)
    (hd0 : 0 < day0.close) (hrest : ∀ p ∈ rest, 0 < p.close)
    (hcash : 0 ≤ 1 + dcr) (hc2 : c2 ≤ 1) (hcc : c1 ≤ c2)
    (hinv : TFLastInv st0) (h0 : 0 ≤ st0.trendFollowingValue) :
    (tfLoop ms dcr c1 bp day0 rest st0).signalDates =
      (tfLoop ms dcr c2 bp day0 rest st0).signalDates ∧
    (tfLoop ms dcr c1 bp day0 rest st0).chartData.length =
      (tfLoop ms dcr c2 bp day0 rest st0).chartData.length ∧
    0 ≤ ((tfLoop ms dcr c2 bp day0 rest st0).chartData.map
        (fun p => p.trendFollowing)).getLastD 0 ∧
    ((tfLoop ms dcr c2 bp day0 rest st0).chartData.map
        (fun p => p.trendFollowing)).getLastD 0 ≤
      ((tfLoop ms dcr c1 bp day0 rest st0).chartData.map
        (fun p => p.trendFollowing)).getLastD 0 := by
  obtain ⟨_, _, hsd, hlen, htv0, htvle⟩ :=
    tfLoop_rel ms dcr c1 c2 bp hcash hc2 hcc rest day0 st0 st0 hd0 hrest
      ⟨rfl, rfl, rfl, rfl, h0, le_refl _⟩
  obtain ⟨_, he1⟩ := tfLoop_last ms dcr c1 bp rest day0 st0 hinv
  obtain ⟨_, he2⟩ := tfLoop_last ms dcr c2 bp rest day0 st0 hinv
  refine ⟨hsd, hlen, ?_, ?_⟩
  · rw [he2]
    exact htv0
  · rw [he1, he2]
    exact htvle

theorem tfEquity_pair (data : List StooqDataPoint) (ms : List MonthlyDataPoint)
    (r c1 c2 : ℝ) (hpos : ∀ p ∈ data, 0 < p.close) (hr : -1 ≤ r)
    (hc2 : c2 ≤ 1) (hcc : c1 ≤ c2) :
    (calculateTrendFollowingEquity data ms r c1).2 =
      (calculateTrendFollowingEquity data ms r c2).2 ∧
    (calculateTrendFollowingEquity data ms r c1).1.length =
      (calculateTrendFollowingEquity data ms r c2).1.length ∧
    0 ≤ (((calculateTrendFollowingEquity data ms r c2).1.map
        (fun p => p.trendFollowing)).getLastD 0) ∧
    ((calculateTrendFollowingEquity data ms r c2).1.map
        (fun p => p.trendFollowing)).getLastD 0 ≤
      ((calculateTrendFollowingEquity data ms r c1).1.map
        (fun p => p.trendFollowing)).getLastD 0 := by
  have hcash : (0 : ℝ) ≤ 1 + (Real.rpow (1 + r) (1 / 252) - 1) := by
    have h : (0 : ℝ) ≤ Real.rpow (1 + r) (1 / 252) :=
      Real.rpow_nonneg (by linarith : (0 : ℝ) ≤ 1 + r) (1 / 252)
    linarith
  simp only [calculateTrendFollowingEquity]
  by_cases h0 : data.length = 0 ∨ ms.length < 10
  · rw [if_pos h0, if_pos h0]
    exact ⟨rfl, rfl, le_refl 0, le_refl 0⟩
  · rw [if_neg h0, if_neg h0]
    cases hfind : (ms.find? (fun mp => mp.signal.isSome)).map (fun mp => mp.date) with
    | none =>
      simp [hfind]
    | some fsd =>
      simp only [hfind]
      by_cases hidx : (jsSortByDate data).length ≤
          (jsSortByDate data).findIdx (fun d => strLe fsd d.date)
      · rw [if_pos hidx, if_pos hidx]
        exact ⟨rfl, rfl, le_refl 0, le_refl 0⟩
      · rw [if_neg hidx, if_neg hidx]
        cases hdrop : (jsSortByDate data).drop
            ((jsSortByDate data).findIdx (fun d => strLe fsd d.date)) with
        | nil =>
          simp [hdrop]
        | cons day0 rest =>
          have hmem : ∀ p ∈ day0 :: rest, 0 < p.close := by
            intro p hp
            apply hpos
            have h1 : p ∈ (jsSortByDate data).drop
                ((jsSortByDate data).findIdx (fun d => strLe fsd d.date)) := by
              rw [hdrop]
              exact hp
            have h2 := List.mem_of_mem_drop h1
            rw [jsSortByDate] at h2
            exact (List.mem_insertionSort _).mp h2
          simp only [hdrop]
          refine tfFinal_pair ms _ c1 c2 _ day0 rest _
            (hmem day0 (List.mem_cons_self day0 rest))
            (fun p hp => hmem p (List.mem_cons_of_mem day0 hp))
            hcash hc2 hcc ⟨by simp, rfl⟩ zero_le_one

/-- C2: for price data with positive closes, any risk-free rate at least -1,
and commission rates 0 ≤ c1 ≤ c2 ≤ 1, two runs of
`calculateTrendFollowingAnalysis` on the same data and rate that differ only
in the commission produce identical signal-transition logs, and the final
trend-following amount at the higher commission is no larger than at the
lower commission. -/
theorem trendFollowing_commission_mono (data : List StooqDataPoint) (r c1 c2 : ℝ)
    (hpos : ∀ p ∈ data, 0 < p.close) (hr : -1 ≤ r)
    (_hc1 : 0 ≤ c1) (hcc : c1 ≤ c2) (hc2 : c2 ≤ 1) :
    CommissionMonoProp data r c1 c2 := by
  intro a1 a2 h1 h2
  obtain ⟨hsd, hlen, h0le, hle⟩ := tfEquity_pair data
    (calculateMonthlySignals (extractMonthlyEndPrices data)) r c1 c2 hpos hr hc2 hcc
  simp only [calculateTrendFollowingAnalysis] at h1 h2
  by_cases h252 : data.length < 252
  · rw [if_pos h252] at h1
    exact Option.noConfusion h1
  · rw [if_neg h252] at h1 h2
    by_cases h12 : (extractMonthlyEndPrices data).length < 12
    · rw [if_pos h12] at h1
      exact Option.noConfusion h1
    · rw [if_neg h12] at h1 h2
      by_cases hz : (calculateTrendFollowingEquity data
          (calculateMonthlySignals (extractMonthlyEndPrices data)) r c1).1.length = 0
      · rw [if_pos hz] at h1
        exact Option.noConfusion h1
      · have hz2 : ¬ (calculateTrendFollowingEquity data
            (calculateMonthlySignals (extractMonthlyEndPrices data)) r c2).1.length = 0 := by
          rw [← hlen]
          exact hz
        rw [if_neg hz, Option.some.injEq] at h1
        rw [if_neg hz2, Option.some.injEq] at h2
        subst h1
        subst h2
        have key : (calculateStrategyStatistics
            ((calculateTrendFollowingEquity data
              (calculateMonthlySignals (extractMonthlyEndPrices data)) r c2).1.map
                (fun p => p.trendFollowing))
            ((calculateTrendFollowingEquity data
              (calculateMonthlySignals (extractMonthlyEndPrices data)) r c2).1.map
                (fun p => p.date)) r).finalAmount ≤
            (calculateStrategyStatistics
            ((calculateTrendFollowingEquity data
              (calculateMonthlySignals (extractMonthlyEndPrices data)) r c1).1.map
                (fun p => p.trendFollowing))
            ((calculateTrendFollowingEquity data
              (calculateMonthlySignals (extractMonthlyEndPrices data)) r c1).1.map
                (fun p => p.date)) r).finalAmount := by
          rw [calcStratStats_finalAmount, calcStratStats_finalAmount,
            List.length_map, List.length_map]
          by_cases hsm : (calculateTrendFollowingEquity data
              (calculateMonthlySignals (extractMonthlyEndPrices data)) r c1).1.length < 2
          · have hsm2 : (calculateTrendFollowingEquity data
                (calculateMonthlySignals (extractMonthlyEndPrices data)) r c2).1.length < 2 := by
              rw [← hlen]
              exact hsm
            rw [if_pos hsm, if_pos hsm2]
          · have hsm2 : ¬ (calculateTrendFollowingEquity data
                (calculateMonthlySignals (extractMonthlyEndPrices data)) r c2).1.length < 2 := by
              rw [← hlen]
              exact hsm
            rw [if_neg hsm, if_neg hsm2]
            exact hle
        exact ⟨hsd, key⟩

theorem tfAnalysis_isSome_of (data : List StooqDataPoint) (r c : ℝ)
    (h252 : 252 ≤ data.length) (h12 : 12 ≤ (extractMonthlyEndPrices data).length) :
    (calculateTrendFollowingAnalysis data r c).isSome = true := by
  simp only [calculateTrendFollowingAnalysis]
  rw [if_neg (by omega : ¬ data.length < 252)]
  rw [if_neg (by omega : ¬ (extractMonthlyEndPrices data).length < 12)]
  have hne := tfEquity_chart_nonempty data r c (by omega) (by omega)
  have hlen : ¬ (calculateTrendFollowingEquity data
      (calculateMonthlySignals (extractMonthlyEndPrices data)) r c).1.length = 0 := by
    intro h
    exact hne (List.length_eq_zero.mp h)
  rw [if_neg hlen]
  rfl

set_option maxRecDepth 8000 in
set_option maxHeartbeats 1000000 in
/-- Witness for C2: on the concrete 260-point, 13-month series `tfBigData`
with rate `0`, both analyses (commissions `0` and `1/2`) actually succeed,
and the hypotheses of `trendFollowing_commission_mono` hold there. -/
theorem trendFollowing_commission_mono_witness :
    (∀ p ∈ tfBigData, 0 < p.close) ∧ (-1 : ℝ) ≤ 0 ∧ (0 : ℝ) ≤ 0 ∧
      (0 : ℝ) ≤ 1 / 2 ∧ (1 / 2 : ℝ) ≤ 1 ∧
      (calculateTrendFollowingAnalysis tfBigData 0 0).isSome = true ∧
      (calculateTrendFollowingAnalysis tfBigData 0 (1 / 2)).isSome = true ∧
      CommissionMonoProp tfBigData 0 0 (1 / 2) := by
  have hpos : ∀ p ∈ tfBigData, 0 < p.close := by decide
  have h252 : 252 ≤ tfBigData.length := by decide
  have h12 : 12 ≤ (extractMonthlyEndPrices tfBigData).length := by decide
  exact ⟨hpos, by norm_num, le_refl 0, by norm_num, by norm_num,
    tfAnalysis_isSome_of tfBigData 0 0 h252 h12,
    tfAnalysis_isSome_of tfBigData 0 (1 / 2) h252 h12,
    trendFollowing_commission_mono tfBigData 0 0 (1 / 2) hpos (by norm_num)
      (le_refl 0) (by norm_num) (by norm_num)⟩
